import Mathlib

/-!
Replica state tracker of the data node (`internal/datanode/collection_replica.go`).

A shallow embedding of `ReplicaImpl` and its operations, followed by the
properties of the segment and collection registries.

Conventions of the embedding

* `UniqueID` is Go `int64`; identifiers are only ever compared, so they are `Int`.
* `numRows` is Go `int64`; the one arithmetic operation on it (`+=`) wraps, which is
  written with `wrapInt64`.
* A Go `error` result is `Option GoError` (`none` is `nil`); a `(*T, error)` result is
  `Except GoError T`.
* `replica.segments` is a slice of pointers.  Every pointer stored in it comes from a
  fresh allocation in `addSegment` and `removeSegment` only moves pointers, so two
  slots never alias; the slice is a `List Segment` and "mutating `ele`" is `List.set`
  at the index the `range` loop stopped at.
* The mutex is not modelled: each operation holds it for its whole body, so operations
  are atomic steps on the state.
-/

namespace datanode

/-- Go `int64` wrap-around: the representative of `x` modulo `2^64` in `[-2^63, 2^63)`. -/
def wrapInt64 (x : Int) : Int :=
  (x + 9223372036854775808) % 18446744073709551616 - 9223372036854775808

/-- Modelled from the spec: `internalpb2.MsgPosition` is generated code that is not part
of the sources; the replica only ever writes its `ChannelName`. -/
structure MsgPosition where
  ChannelName : String
  deriving DecidableEq, Repr

/-- Modelled from the spec: `internalpb2.SegmentStatisticsUpdates` is generated code that
is not part of the sources; these are the fields `getSegmentStatisticsUpdates` fills in
(`StartPosition` is a pointer, `none` is `nil`). -/
structure SegmentStatisticsUpdates where
  SegmentID : Int
  MemorySize : Int
  NumRows : Int
  IsNewSegment : Bool
  StartPosition : Option MsgPosition
  deriving DecidableEq, Repr

/-- Modelled from the spec: `schemapb.FieldSchema`, as the struct literals of
`partition_task_test.go` show it. -/
structure FieldSchema where
  Name : String
  Description : String
  DataType : Nat
  TypeParams : List (String × String)
  IndexParams : List (String × String)
  deriving DecidableEq, Repr

/-- Modelled from the spec: `schemapb.CollectionSchema`, as the struct literals of
`partition_task_test.go` show it. -/
structure CollectionSchema where
  Name : String
  Description : String
  AutoID : Bool
  Fields : List FieldSchema
  deriving DecidableEq, Repr

/-- Modelled from the spec: the data node's `Collection` (declared in a file that is not
part of the sources) is "a simpler record: ID, name, schema"; the name is the schema's. -/
structure Collection where
  schema : CollectionSchema
  id : Int
  deriving DecidableEq, Repr

/-- The errors of `collection_replica.go`, one constructor per `errors.Errorf` format
string, carrying the formatted argument; `external` is an error handed through from
`newCollection`. -/
inductive GoError where
  /-- The message is "Cannot find segment, id = %v". -/
  | cannotFindSegment (segmentID : Int)
  /-- The message is "Error, there's no segment %v". -/
  | noSegment (segmentID : Int)
  /-- The message is "Create an existing collection=%s". -/
  | existingCollection (name : String)
  /-- The message is "Cannot get collection %d by ID: not exist". -/
  | collectionNotExist (collectionID : Int)
  /-- An error returned by the `newCollection` constructor. -/
  | external (msg : String)
  deriving DecidableEq, Repr

/-- The struct `Segment`; `Timestamp` is `uint64`, the positions are pointers. -/
structure Segment where
  segmentID : Int
  collectionID : Int
  partitionID : Int
  numRows : Int
  memorySize : Int
  isNew : Bool
  createTime : Nat
  endTime : Nat
  startPosition : Option MsgPosition
  endPosition : Option MsgPosition
  deriving DecidableEq, Repr

/-- The struct `ReplicaImpl` without its mutex; the Go map is an association list with
unique keys. -/
structure ReplicaImpl where
  segments : List Segment
  collections : AList (fun _ : Int => Collection)
  deriving DecidableEq

/-- The constructor `newReplica`: no segments, no collections. -/
def newReplica : ReplicaImpl :=
  { segments := [], collections := ∅ }

/-- The loop header shared by the segment operations,
`for index, ele := range replica.segments { if ele.segmentID == segmentID { ... return } }`:
the index and element at which the body runs, `none` when the loop falls through. -/
def rangeSegments : List Segment → Int → Option (Nat × Segment)
  | [], _ => none
  | ele :: rest, segmentID =>
    if ele.segmentID = segmentID then some (0, ele)
    else match rangeSegments rest segmentID with
      | some (index, found) => some (index + 1, found)
      | none => none

namespace ReplicaImpl

/-- The method `getSegmentByID`. -/
def getSegmentByID (replica : ReplicaImpl) (segmentID : Int) : Except GoError Segment :=
  match rangeSegments replica.segments segmentID with
  | some (_, segment) => .ok segment
  | none => .error (.cannotFindSegment segmentID)

/-- The method `addSegment`: returns the error (always `nil`) and the state after. -/
def addSegment (replica : ReplicaImpl) (segmentID collID partitionID : Int)
    (channelName : String) : Option GoError × ReplicaImpl :=
  let position : MsgPosition := { ChannelName := channelName }
  let seg : Segment :=
    { segmentID := segmentID
      collectionID := collID
      partitionID := partitionID
      numRows := 0
      memorySize := 0
      isNew := true
      createTime := 0
      endTime := 0
      startPosition := some position
      endPosition := some { ChannelName := "" } }
  (none, { replica with segments := replica.segments ++ [seg] })

/-- The method `removeSegment`: the slot of the first match takes the last element and
the slice loses its last slot.  The loop body only runs on a non-empty slice, so the
read of `segments[numOfSegs-1]` is in range and the fallback `ele` is never used. -/
def removeSegment (replica : ReplicaImpl) (segmentID : Int) : Option GoError × ReplicaImpl :=
  match rangeSegments replica.segments segmentID with
  | some (index, ele) =>
    let numOfSegs := replica.segments.length
    let segments := replica.segments.set index (replica.segments.getD (numOfSegs - 1) ele)
    (none, { replica with segments := segments.take (numOfSegs - 1) })
  | none => (some (.noSegment segmentID), replica)

/-- The method `hasSegment`. -/
def hasSegment (replica : ReplicaImpl) (segmentID : Int) : Bool :=
  match rangeSegments replica.segments segmentID with
  | some _ => true
  | none => false

/-- The method `updateStatistics`: `ele.memorySize = 0; ele.numRows += numRows` on the
first match. -/
def updateStatistics (replica : ReplicaImpl) (segmentID : Int) (numRows : Int) :
    Option GoError × ReplicaImpl :=
  match rangeSegments replica.segments segmentID with
  | some (index, ele) =>
    let ele := { ele with memorySize := 0 }
    let ele := { ele with numRows := wrapInt64 (ele.numRows + numRows) }
    (none, { replica with segments := replica.segments.set index ele })
  | none => (some (.noSegment segmentID), replica)

/-- The method `getSegmentStatisticsUpdates`: builds the report from the first match and
clears its `isNew` flag when it was set. -/
def getSegmentStatisticsUpdates (replica : ReplicaImpl) (segmentID : Int) :
    Except GoError SegmentStatisticsUpdates × ReplicaImpl :=
  match rangeSegments replica.segments segmentID with
  | some (index, ele) =>
    let updates : SegmentStatisticsUpdates :=
      { SegmentID := segmentID
        MemorySize := ele.memorySize
        NumRows := ele.numRows
        IsNewSegment := ele.isNew
        StartPosition := none }
    if ele.isNew then
      let updates := { updates with StartPosition := ele.startPosition }
      let ele := { ele with isNew := false }
      (.ok updates, { replica with segments := replica.segments.set index ele })
    else
      (.ok updates, replica)
  | none => (.error (.noSegment segmentID), replica)

/-- The method `getCollectionNum`: `len(replica.collections)`. -/
def getCollectionNum (replica : ReplicaImpl) : Nat :=
  replica.collections.entries.length

/-- The method `addCollection`; the constructor `newCollection` lives in a file that is
not part of the sources and is a parameter. -/
def addCollection (newCollection : Int → CollectionSchema → Except GoError Collection)
    (replica : ReplicaImpl) (collectionID : Int) (schema : CollectionSchema) :
    Option GoError × ReplicaImpl :=
  match replica.collections.lookup collectionID with
  | some _ => (some (.existingCollection schema.Name), replica)
  | none =>
    match newCollection collectionID schema with
    | .error err => (some err, replica)
    | .ok coll =>
      (none, { replica with collections := replica.collections.insert collectionID coll })

/-- The method `removeCollection`: `delete` on the map, never an error. -/
def removeCollection (replica : ReplicaImpl) (collectionID : Int) :
    Option GoError × ReplicaImpl :=
  (none, { replica with collections := replica.collections.erase collectionID })

/-- The method `getCollectionByID`. -/
def getCollectionByID (replica : ReplicaImpl) (collectionID : Int) :
    Except GoError Collection :=
  match replica.collections.lookup collectionID with
  | some coll => .ok coll
  | none => .error (.collectionNotExist collectionID)

/-- The method `hasCollection`. -/
def hasCollection (replica : ReplicaImpl) (collectionID : Int) : Bool :=
  (replica.collections.lookup collectionID).isSome

end ReplicaImpl

/-- A call on the `Replica` interface, with its arguments. -/
inductive ReplicaCall where
  | getCollectionNum
  | addCollection (collectionID : Int) (schema : CollectionSchema)
  | removeCollection (collectionID : Int)
  | getCollectionByID (collectionID : Int)
  | hasCollection (collectionID : Int)
  | addSegment (segmentID collID partitionID : Int) (channelName : String)
  | removeSegment (segmentID : Int)
  | hasSegment (segmentID : Int)
  | updateStatistics (segmentID : Int) (numRows : Int)
  | getSegmentStatisticsUpdates (segmentID : Int)
  | getSegmentByID (segmentID : Int)
  deriving DecidableEq, Repr

/-- The error component of a `(*T, error)` result. -/
def errorOf {α : Type} : Except GoError α → Option GoError
  | .ok _ => none
  | .error err => some err

/-- Dispatch of a call to the method of `ReplicaImpl`: the error it returns (`none` for
`nil`, and for the methods without an error result) and the state after the call.  The
methods that only read under `RLock` leave the state as it is. -/
def ReplicaCall.exec (newCollection : Int → CollectionSchema → Except GoError Collection)
    (replica : ReplicaImpl) : ReplicaCall → Option GoError × ReplicaImpl
  | .getCollectionNum => (none, replica)
  | .addCollection collectionID schema =>
    replica.addCollection newCollection collectionID schema
  | .removeCollection collectionID => replica.removeCollection collectionID
  | .getCollectionByID collectionID => (errorOf (replica.getCollectionByID collectionID), replica)
  | .hasCollection _ => (none, replica)
  | .addSegment segmentID collID partitionID channelName =>
    replica.addSegment segmentID collID partitionID channelName
  | .removeSegment segmentID => replica.removeSegment segmentID
  | .hasSegment _ => (none, replica)
  | .updateStatistics segmentID numRows => replica.updateStatistics segmentID numRows
  | .getSegmentStatisticsUpdates segmentID =>
    (errorOf (replica.getSegmentStatisticsUpdates segmentID).1,
      (replica.getSegmentStatisticsUpdates segmentID).2)
  | .getSegmentByID segmentID => (errorOf (replica.getSegmentByID segmentID), replica)

/-- The state after a sequence of calls, made one after the other. -/
def runCalls (newCollection : Int → CollectionSchema → Except GoError Collection)
    (replica : ReplicaImpl) (calls : List ReplicaCall) : ReplicaImpl :=
  calls.foldl (fun r call => (call.exec newCollection r).2) replica

/-- Whether the call is `addSegment` or `removeSegment` of the given segment ID. -/
def ReplicaCall.addsOrRemoves (segmentID : Int) : ReplicaCall → Bool
  | .addSegment i _ _ _ => decide (i = segmentID)
  | .removeSegment i => decide (i = segmentID)
  | _ => false

/-- Whether the call is `addSegment` of the given segment ID. -/
def ReplicaCall.addsSegment (segmentID : Int) : ReplicaCall → Bool
  | .addSegment i _ _ _ => decide (i = segmentID)
  | _ => false

/-- Whether the call is `getSegmentStatisticsUpdates` of the given segment ID. -/
def ReplicaCall.readsStatisticsOf (segmentID : Int) : ReplicaCall → Bool
  | .getSegmentStatisticsUpdates i => decide (i = segmentID)
  | _ => false

/-- A `newCollection` that always succeeds, building the record from its arguments. -/
def newCollectionOk (collectionID : Int) (schema : CollectionSchema) :
    Except GoError Collection :=
  .ok { schema := schema, id := collectionID }

/-- The calling discipline "`addSegment(id, ..)` only when `hasSegment(id)` is false":
whether the call respects it in the given state (every other call does). -/
def ReplicaCall.guarded (replica : ReplicaImpl) : ReplicaCall → Bool
  | .addSegment i _ _ _ => !replica.hasSegment i
  | _ => true

/-- Whether every call of the sequence respects the calling discipline in the state it
is made in, the calls being made one after the other. -/
def callsGuarded (newCollection : Int → CollectionSchema → Except GoError Collection) :
    ReplicaImpl → List ReplicaCall → Bool
  | _, [] => true
  | replica, call :: rest =>
    call.guarded replica && callsGuarded newCollection (call.exec newCollection replica).2 rest

/-- A concrete state for worked inputs: segments 1 and 2 of collection 10, added in that
order on channels "dm0" and "dm1", and no collection. -/
def sampleReplica : ReplicaImpl :=
  ((newReplica.addSegment 1 10 100 "dm0").2.addSegment 2 10 100 "dm1").2

/-- Some segment of the list has the given ID, and every segment with that ID
satisfies `P`. -/
def HoldsOn (segmentID : Int) (P : Segment → Prop) (segs : List Segment) : Prop :=
  (∃ s ∈ segs, s.segmentID = segmentID) ∧ ∀ s ∈ segs, s.segmentID = segmentID → P s

/-- How many segments of the list have the given ID. -/
def idCount (segmentID : Int) (segs : List Segment) : Nat :=
  (segs.map (fun s => s.segmentID)).count segmentID

end datanode

/-! ## The catalog service of the master and its timestamp barrier

The sources of the master are not part of the repository snapshot; only
`internal/master/partition_task_test.go` is.  The model below follows the specification
(sections 3, 4.1, 4.2 and 7) and is checked against the trace of `TestMaster_Partition`. -/

namespace master

/-- Modelled from the spec: the failure taxonomy of section 7 (the master's error values
are not in the sources). -/
inductive CatalogError where
  | StaleOrDuplicateTimestamp
  | NotFound
  | AlreadyExists
  | InvalidArgument
  | Internal
  deriving DecidableEq, Repr

/-- Modelled from the spec: a partition, "identified by (collection, tag); has a creation
timestamp" (the master's metadata types are not in the sources). -/
structure Partition where
  Tag : String
  CreateTime : Nat
  deriving DecidableEq, Repr

/-- Modelled from the spec: the catalog's record of a collection: name, schema, creation
timestamp and partitions (the master's metadata types are not in the sources; the ID is
issued by an external allocator and no catalog operation of the spec reads it). -/
structure CollectionMeta where
  Name : String
  Schema : datanode.CollectionSchema
  CreateTime : Nat
  Partitions : List Partition
  deriving DecidableEq, Repr

/-- Modelled from the spec: the partition tags of a collection, the field `PartitionTags`
that `TestMaster_Partition` reads. -/
def CollectionMeta.PartitionTags (meta : CollectionMeta) : List String :=
  meta.Partitions.map (fun q => q.Tag)

/-- Modelled from the spec: the state of the catalog service, "a single monotonically
increasing watermark value" and the collections it owns (the master's state is not in the
sources). -/
structure Catalog where
  watermark : Nat
  collections : List CollectionMeta
  deriving DecidableEq, Repr

/-- Modelled from the spec: a catalog that has accepted nothing yet; timestamps are
unsigned and the watermark starts at the zero timestamp. -/
def newCatalog : Catalog :=
  { watermark := 0, collections := [] }

/-- Modelled from the spec: the implicit partition tag `"_default"`
(`DefaultPartitionTag` in the parameters of `TestMaster_Partition`). -/
def defaultPartitionTag : String := "_default"

/-- Modelled from the spec: the payload of a successful response. -/
inductive CatalogReply where
  | done
  | present (value : Bool)
  | tags (values : List String)
  | partition (collectionName tag : String) (createTime : Nat)
  deriving DecidableEq, Repr

/-- Modelled from the spec: the timestamp barrier of section 4.1, `validate(ts)`: "accepts
and advances the watermark iff `ts > watermark`; otherwise rejects, watermark
unchanged" (the barrier's code is not in the sources). -/
def validate (s : Catalog) (ts : Nat) : Bool × Catalog :=
  if ts > s.watermark then (true, { s with watermark := ts }) else (false, s)

/-- Modelled from the spec: the gate of section 4.2, "every public operation first calls
the Timestamp Barrier with its request timestamp; on rejection the operation fails with
`StaleOrDuplicateTimestamp` and performs no state change"; on acceptance the operation
runs on the state with the advanced watermark.  A request that passes the barrier and
then fails for a reason of its own (`NotFound`, `AlreadyExists`, `InvalidArgument`) keeps
the advanced watermark, as section 4.1 has the barrier advance exactly when
`ts > watermark`; such a request leaves the collections as they were. -/
def gated (s : Catalog) (ts : Nat)
    (body : Catalog → Except CatalogError CatalogReply × Catalog) :
    Except CatalogError CatalogReply × Catalog :=
  match validate s ts with
  | (false, s) => (.error .StaleOrDuplicateTimestamp, s)
  | (true, s) => body s

/-- Modelled from the spec: lookup of a collection by its name, which is unique. -/
def findCollection (s : Catalog) (name : String) : Option CollectionMeta :=
  s.collections.find? (fun c => decide (c.Name = name))

/-- Modelled from the spec: replacement of the record of the collection with the
given name. -/
def updateCollection (s : Catalog) (name : String) (f : CollectionMeta → CollectionMeta) :
    Catalog :=
  { s with collections := s.collections.map (fun c => if c.Name = name then f c else c) }

/-- Modelled from the spec: `getCollectionByName(name)`, "not barrier-gated (no timestamp
parameter), a direct snapshot read". -/
def getCollectionByName (s : Catalog) (name : String) : Except CatalogError CollectionMeta :=
  match findCollection s name with
  | some meta => .ok meta
  | none => .error .NotFound

/-- Modelled from the spec: `createCollection(ts, name, schema)`, "fails with
`AlreadyExists` if name taken; else registers the collection with creation timestamp
`ts`, seeds partition tags with `{"_default"}`". -/
def createCollection (s : Catalog) (ts : Nat) (name : String)
    (schema : datanode.CollectionSchema) : Except CatalogError CatalogReply × Catalog :=
  gated s ts fun s =>
    match findCollection s name with
    | some _ => (.error .AlreadyExists, s)
    | none =>
      (.ok .done, { s with collections := s.collections ++
        [{ Name := name, Schema := schema, CreateTime := ts,
           Partitions := [{ Tag := defaultPartitionTag, CreateTime := ts }] }] })

/-- Modelled from the spec: `createPartition(ts, collectionName, tag)`, "fails `NotFound`
if collection absent; fails `AlreadyExists` if tag present; else appends tag with
timestamp `ts`". -/
def createPartition (s : Catalog) (ts : Nat) (collectionName tag : String) :
    Except CatalogError CatalogReply × Catalog :=
  gated s ts fun s =>
    match findCollection s collectionName with
    | none => (.error .NotFound, s)
    | some meta =>
      if tag ∈ meta.PartitionTags then (.error .AlreadyExists, s)
      else (.ok .done, updateCollection s collectionName (fun c =>
        { c with Partitions := c.Partitions ++ [{ Tag := tag, CreateTime := ts }] }))

/-- Modelled from the spec: `dropPartition(ts, collectionName, tag)`, "fails `NotFound` if
collection or tag absent; else removes tag"; dropping the default tag is "treated as
disallowed (`InvalidArgument`)" as section 9 settles the open question. -/
def dropPartition (s : Catalog) (ts : Nat) (collectionName tag : String) :
    Except CatalogError CatalogReply × Catalog :=
  gated s ts fun s =>
    match findCollection s collectionName with
    | none => (.error .NotFound, s)
    | some meta =>
      if tag ∉ meta.PartitionTags then (.error .NotFound, s)
      else if tag = defaultPartitionTag then (.error .InvalidArgument, s)
      else (.ok .done, updateCollection s collectionName (fun c =>
        { c with Partitions := c.Partitions.filter (fun q => decide (q.Tag ≠ tag)) }))

/-- Modelled from the spec: `hasPartition(ts, collectionName, tag)`, "barrier-gated read;
returns presence"; in a collection that does not exist no tag is present. -/
def hasPartition (s : Catalog) (ts : Nat) (collectionName tag : String) :
    Except CatalogError CatalogReply × Catalog :=
  gated s ts fun s =>
    match findCollection s collectionName with
    | none => (.ok (.present false), s)
    | some meta => (.ok (.present (decide (tag ∈ meta.PartitionTags))), s)

/-- Modelled from the spec: `showPartitions(ts, collectionName)`, "barrier-gated read;
returns all tags"; `NotFound` when the collection is absent. -/
def showPartitions (s : Catalog) (ts : Nat) (collectionName : String) :
    Except CatalogError CatalogReply × Catalog :=
  gated s ts fun s =>
    match findCollection s collectionName with
    | none => (.error .NotFound, s)
    | some meta => (.ok (.tags meta.PartitionTags), s)

/-- Modelled from the spec: `describePartition(ts, collectionName, tag)`, "barrier-gated
read; fails `NotFound` if absent". -/
def describePartition (s : Catalog) (ts : Nat) (collectionName tag : String) :
    Except CatalogError CatalogReply × Catalog :=
  gated s ts fun s =>
    match findCollection s collectionName with
    | none => (.error .NotFound, s)
    | some meta =>
      match meta.Partitions.find? (fun q => decide (q.Tag = tag)) with
      | none => (.error .NotFound, s)
      | some q => (.ok (.partition collectionName q.Tag q.CreateTime), s)

/-- Modelled from the spec: a timestamped request to the catalog service, one constructor
per gated operation of section 4.2. -/
inductive CatalogOp where
  | createCollection (ts : Nat) (name : String) (schema : datanode.CollectionSchema)
  | createPartition (ts : Nat) (collectionName tag : String)
  | dropPartition (ts : Nat) (collectionName tag : String)
  | hasPartition (ts : Nat) (collectionName tag : String)
  | showPartitions (ts : Nat) (collectionName : String)
  | describePartition (ts : Nat) (collectionName tag : String)
  deriving DecidableEq, Repr

/-- The timestamp a request carries. -/
def CatalogOp.ts : CatalogOp → Nat
  | .createCollection ts _ _ => ts
  | .createPartition ts _ _ => ts
  | .dropPartition ts _ _ => ts
  | .hasPartition ts _ _ => ts
  | .showPartitions ts _ => ts
  | .describePartition ts _ _ => ts

/-- Dispatch of a request to its operation: the response and the state after. -/
def CatalogOp.exec (s : Catalog) : CatalogOp → Except CatalogError CatalogReply × Catalog
  | .createCollection ts name schema => master.createCollection s ts name schema
  | .createPartition ts collectionName tag => master.createPartition s ts collectionName tag
  | .dropPartition ts collectionName tag => master.dropPartition s ts collectionName tag
  | .hasPartition ts collectionName tag => master.hasPartition s ts collectionName tag
  | .showPartitions ts collectionName => master.showPartitions s ts collectionName
  | .describePartition ts collectionName tag =>
    master.describePartition s ts collectionName tag

/-- The state after a sequence of requests, served one after the other. -/
def runOps (s : Catalog) (ops : List CatalogOp) : Catalog :=
  ops.foldl (fun q op => (op.exec q).2) s

/-- Whether a response is the barrier's rejection. -/
def isRejected : Except CatalogError CatalogReply → Bool
  | .error .StaleOrDuplicateTimestamp => true
  | _ => false

/-- The timestamps of the requests of a sequence that the barrier did not reject, the
latest first in the order of the sequence. -/
def acceptedTimestamps : Catalog → List CatalogOp → List Nat
  | _, [] => []
  | s, op :: rest =>
    if isRejected (op.exec s).1 then acceptedTimestamps (op.exec s).2 rest
    else op.ts :: acceptedTimestamps (op.exec s).2 rest

/-- The responses to a sequence of requests, served one after the other. -/
def outcomes : Catalog → List CatalogOp → List (Except CatalogError CatalogReply)
  | _, [] => []
  | s, op :: rest => (op.exec s).1 :: outcomes (op.exec s).2 rest

/-- Whether the request is `createPartition` or `dropPartition`. -/
def CatalogOp.changesPartitions : CatalogOp → Bool
  | .createPartition _ _ _ => true
  | .dropPartition _ _ _ => true
  | _ => false

/-- The schema of `TestMaster_Partition`, without its fields' parameters. -/
def testSchema : datanode.CollectionSchema :=
  { Name := "col1", Description := "test collection", AutoID := false, Fields := [] }

/-- The requests of `TestMaster_Partition`, in the order the test sends them. -/
def partitionTest : List CatalogOp :=
  [ .createCollection 1 "col1" testSchema,
    .createPartition 2 "col1" "partition1",
    .createPartition 1 "col1" "partition1",
    .createPartition 3 "col1" "partition2",
    .showPartitions 4 "col1",
    .showPartitions 3 "col1",
    .hasPartition 5 "col1" "partition1",
    .hasPartition 4 "col1" "partition1",
    .hasPartition 6 "col1" "partition3",
    .dropPartition 7 "col1" "partition2",
    .dropPartition 6 "col1" "partition2",
    .hasPartition 8 "col1" "partition2",
    .describePartition 9 "col1" "partition1",
    .describePartition 8 "col1" "partition1" ]

end master

/-! ## The key-value table of the parameter table

The sources of `BaseTable` and of the store behind it are not part of the repository
snapshot; only `internal/util/paramtable/basetable_test.go` is.  The model follows the
boundary contract of the specification (section 6). -/

namespace paramtable

/-- Modelled from the spec: the table behind `Save`, `Load`, `Remove` and `LoadRange`,
"flat string key/value pairs", one value per key (`BaseTable` is not in the sources). -/
structure BaseTable where
  params : AList (fun _ : String => String)
  deriving DecidableEq

/-- Modelled from the spec: "lexicographic range-scan ordering" of two entries by their
keys: Go compares strings character by character. -/
def keyLE (a b : (_ : String) × String) : Prop := a.1.toList ≤ b.1.toList

instance keyLE.decidableRel : DecidableRel keyLE :=
  fun a b => inferInstanceAs (Decidable (a.1.toList ≤ b.1.toList))

instance keyLE.isTotal : IsTotal ((_ : String) × String) keyLE :=
  ⟨fun a b => le_total a.1.toList b.1.toList⟩

instance keyLE.isTrans : IsTrans ((_ : String) × String) keyLE :=
  ⟨fun _ _ _ h₁ h₂ => le_trans h₁ h₂⟩

namespace BaseTable

/-- Modelled from the spec: `save(key, value)`; a later save of a key replaces its value. -/
def Save (t : BaseTable) (key value : String) : BaseTable :=
  { params := t.params.insert key value }

/-- Modelled from the spec: `load(key) -> value`; `none` is the error for a key that is
not stored. -/
def Load (t : BaseTable) (key : String) : Option String :=
  t.params.lookup key

/-- Modelled from the spec: `remove(key)`. -/
def Remove (t : BaseTable) (key : String) : BaseTable :=
  { params := t.params.erase key }

/-- Modelled from the spec: `loadRange(lowKey, highKey, limit) -> (keys, values)`,
"returning keys in ascending lexicographic order with `values[i]` corresponding to
`keys[i]`": the stored entries with `lowKey ≤ key < highKey`, ordered by key, at most
`limit` of them, the least keys first (`LoadRange` is not in the sources; the spec names
the bounds and the limit without fixing them further, the range is read as half-open). -/
def LoadRange (t : BaseTable) (lowKey highKey : String) (limit : Nat) :
    List String × List String :=
  let inRange := t.params.entries.filter
    (fun e => decide (lowKey.toList ≤ e.1.toList) && decide (e.1.toList < highKey.toList))
  let page := (inRange.insertionSort keyLE).take limit
  (page.map (fun e => e.1), page.map (fun e => e.2))

end BaseTable

/-- A table without entries. -/
def emptyTable : BaseTable := { params := ∅ }

/-- The table of `TestGlobalParamsTable_LoadRange` after its five `Save` calls. -/
def rangeTestTable : BaseTable :=
  ((((emptyTable.Save "xxxaab" "10").Save "xxxfghz" "20").Save "xxxbcde" "1.1").Save
    "xxxabcd" "testSaveAndLoad").Save "xxxzhi" "12"

end paramtable

namespace datanode

/-! ## The `range` loop -/

theorem rangeSegments_eq_none_iff (segs : List Segment) (id : Int) :
    rangeSegments segs id = none ↔ ∀ s ∈ segs, s.segmentID ≠ id := by
  induction segs with
  | nil => simp [rangeSegments]
  | cons a rest ih =>
    by_cases h : a.segmentID = id
    · simp [rangeSegments, h]
    · cases hr : rangeSegments rest id with
      | none => simpa [rangeSegments, h, hr] using ih.mp hr
      | some p =>
        have : ¬ ∀ s ∈ rest, s.segmentID ≠ id := fun hall => by
          rw [ih.mpr hall] at hr; cases hr
        simp only [rangeSegments, h, hr, if_false]
        constructor
        · intro hc; cases hc
        · intro hall; exact absurd (fun s hs => hall s (List.mem_cons_of_mem _ hs)) this

theorem rangeSegments_append (pre l : List Segment) (id : Int)
    (hpre : ∀ s ∈ pre, s.segmentID ≠ id) :
    rangeSegments (pre ++ l) id
      = (rangeSegments l id).map (fun q => (q.1 + pre.length, q.2)) := by
  induction pre with
  | nil =>
    rw [List.nil_append]
    cases rangeSegments l id <;> simp
  | cons a rest ih =>
    have ha : a.segmentID ≠ id := hpre a (List.mem_cons_self _ _)
    have hrest : ∀ s ∈ rest, s.segmentID ≠ id := fun s hs => hpre s (List.mem_cons_of_mem _ hs)
    have hcons : rangeSegments (a :: (rest ++ l)) id
        = match rangeSegments (rest ++ l) id with
          | some (index, found) => some (index + 1, found)
          | none => none := by
      simp only [rangeSegments, ha, if_false]
    rw [List.cons_append, hcons, ih hrest]
    cases rangeSegments l id with
    | none => rfl
    | some q => simp [Nat.add_assoc]

theorem rangeSegments_split (segs : List Segment) (id : Int) (i : Nat) (e : Segment)
    (h : rangeSegments segs id = some (i, e)) :
    ∃ pre post, segs = pre ++ e :: post ∧ (∀ s ∈ pre, s.segmentID ≠ id)
      ∧ e.segmentID = id ∧ pre.length = i := by
  induction segs generalizing i with
  | nil => simp [rangeSegments] at h
  | cons a rest ih =>
    by_cases ha : a.segmentID = id
    · simp only [rangeSegments, ha, if_true, Option.some.injEq, Prod.mk.injEq] at h
      obtain ⟨rfl, rfl⟩ := h
      exact ⟨[], rest, rfl, by simp, ha, rfl⟩
    · cases hr : rangeSegments rest id with
      | none => simp [rangeSegments, ha, hr] at h
      | some q =>
        obtain ⟨j, x⟩ := q
        simp only [rangeSegments, ha, hr, if_false, Option.some.injEq, Prod.mk.injEq] at h
        obtain ⟨rfl, rfl⟩ := h
        obtain ⟨pre, post, hs, hp, hid, hl⟩ := ih j hr
        refine ⟨a :: pre, post, by simp [hs], ?_, hid, by simp [hl]⟩
        intro s hs'
        rcases List.mem_cons.mp hs' with rfl | hm
        · exact ha
        · exact hp s hm

theorem rangeSegments_of_split (pre post : List Segment) (e : Segment) (id : Int)
    (hpre : ∀ s ∈ pre, s.segmentID ≠ id) (he : e.segmentID = id) :
    rangeSegments (pre ++ e :: post) id = some (pre.length, e) := by
  rw [rangeSegments_append pre _ id hpre]
  simp [rangeSegments, he]

theorem rangeSegments_eq_find (segs : List Segment) (id : Int) :
    (rangeSegments segs id).map Prod.snd = segs.find? (fun s => decide (s.segmentID = id)) := by
  induction segs with
  | nil => rfl
  | cons a rest ih =>
    by_cases ha : a.segmentID = id
    · simp [rangeSegments, ha]
    · rw [List.find?_cons_of_neg _ (by simpa using ha), ← ih]
      simp only [rangeSegments, ha, if_false]
      cases rangeSegments rest id <;> rfl

theorem set_split (pre post : List Segment) (e x : Segment) :
    (pre ++ e :: post).set pre.length x = pre ++ x :: post := by
  induction pre with
  | nil => rfl
  | cons a rest ih => simp [List.set, ih]

/-- Swap-with-last-and-truncate at the position after `pre`: the last element of `post`
(when there is one) takes the place of `e`. -/
theorem swapRemove_split (pre post : List Segment) (e d : Segment) :
    ((pre ++ e :: post).set pre.length
        ((pre ++ e :: post).getD ((pre ++ e :: post).length - 1) d)).take
      ((pre ++ e :: post).length - 1)
      = pre ++ (post.getLast?.toList ++ post.dropLast) := by
  rw [set_split]
  rcases List.eq_nil_or_concat post with rfl | ⟨front, last, rfl⟩
  · simp
  · rw [List.concat_eq_append]
    have hlen : (pre ++ e :: (front ++ [last])).length - 1 = pre.length + (front.length + 1) := by
      simp
    have hget : (pre ++ e :: (front ++ [last])).getD (pre.length + (front.length + 1)) d
        = last := by
      rw [List.getD_append_right _ _ _ _ (by omega)]
      simp
    rw [hlen, hget]
    simp [List.take_append_eq_append_take, List.take_of_length_le]

/-- The two ways the loop can end: it falls through and no segment has the ID, or it
stops at the first segment with the ID. -/
theorem rangeSegments_cases (segs : List Segment) (id : Int) :
    (rangeSegments segs id = none ∧ ∀ s ∈ segs, s.segmentID ≠ id) ∨
    ∃ pre e post, segs = pre ++ e :: post ∧ (∀ s ∈ pre, s.segmentID ≠ id)
      ∧ e.segmentID = id ∧ rangeSegments segs id = some (pre.length, e) := by
  cases h : rangeSegments segs id with
  | none => exact Or.inl ⟨rfl, (rangeSegments_eq_none_iff segs id).mp h⟩
  | some q =>
    obtain ⟨i, e⟩ := q
    obtain ⟨pre, post, hs, hp, he, hl⟩ := rangeSegments_split segs id i e h
    exact Or.inr ⟨pre, e, post, hs, hp, he, by rw [hl]⟩

/-! ## The operations on a state split at the first match -/

namespace ReplicaImpl

theorem hasSegment_eq_true_iff (r : ReplicaImpl) (id : Int) :
    r.hasSegment id = true ↔ ∃ s ∈ r.segments, s.segmentID = id := by
  rcases rangeSegments_cases r.segments id with ⟨hn, hall⟩ | ⟨pre, e, post, hs, _, he, hr⟩
  · simp only [hasSegment, hn]
    constructor
    · intro h; cases h
    · rintro ⟨s, hs, hid⟩; exact absurd hid (hall s hs)
  · simp only [hasSegment, hr, true_iff]
    exact ⟨e, by simp [hs], he⟩

theorem hasSegment_eq_false_iff (r : ReplicaImpl) (id : Int) :
    r.hasSegment id = false ↔ ∀ s ∈ r.segments, s.segmentID ≠ id := by
  rw [← Bool.not_eq_true, hasSegment_eq_true_iff]
  simp

theorem hasSegment_eq_false_iff_range (r : ReplicaImpl) (id : Int) :
    r.hasSegment id = false ↔ rangeSegments r.segments id = none := by
  rw [hasSegment_eq_false_iff, rangeSegments_eq_none_iff]

theorem updateStatistics_of_range (r : ReplicaImpl) (id n : Int) (pre post : List Segment)
    (e : Segment) (hs : r.segments = pre ++ e :: post)
    (hr : rangeSegments r.segments id = some (pre.length, e)) :
    r.updateStatistics id n
      = (none, { r with segments :=
          pre ++ { e with memorySize := 0, numRows := wrapInt64 (e.numRows + n) } :: post }) := by
  simp only [updateStatistics, hr]
  rw [hs, set_split]

theorem getSegmentStatisticsUpdates_of_range (r : ReplicaImpl) (id : Int)
    (pre post : List Segment) (e : Segment) (hs : r.segments = pre ++ e :: post)
    (hr : rangeSegments r.segments id = some (pre.length, e)) :
    r.getSegmentStatisticsUpdates id
      = (.ok { SegmentID := id, MemorySize := e.memorySize, NumRows := e.numRows,
               IsNewSegment := e.isNew,
               StartPosition := if e.isNew then e.startPosition else none },
         { r with segments := pre ++ { e with isNew := false } :: post }) := by
  simp only [getSegmentStatisticsUpdates, hr]
  cases hnew : e.isNew with
  | true =>
    simp only [if_true]
    rw [hs, set_split]
  | false =>
    simp only [Bool.false_eq_true, if_false, Prod.mk.injEq, true_and]
    have : ({ e with isNew := false } : Segment) = e := by
      cases e; simp_all
    rw [this, ← hs]

theorem removeSegment_of_range (r : ReplicaImpl) (id : Int) (pre post : List Segment)
    (e : Segment) (hs : r.segments = pre ++ e :: post)
    (hr : rangeSegments r.segments id = some (pre.length, e)) :
    r.removeSegment id
      = (none, { r with segments := pre ++ (post.getLast?.toList ++ post.dropLast) }) := by
  simp only [removeSegment, hr]
  rw [hs, swapRemove_split]

end ReplicaImpl

/-! ## Properties of the segments with one ID that calls keep -/

theorem swapRemove_perm (pre post : List Segment) (e : Segment) :
    List.Perm (e :: (pre ++ (post.getLast?.toList ++ post.dropLast))) (pre ++ e :: post) := by
  rcases List.eq_nil_or_concat post with rfl | ⟨front, last, rfl⟩
  · simpa using (@List.perm_middle _ e pre []).symm
  · rw [List.concat_eq_append]
    have hl : (front ++ [last]).getLast? = some last := by simp
    have hd : (front ++ [last]).dropLast = front := by simp
    rw [hl, hd]
    simp only [Option.toList, List.singleton_append]
    refine List.Perm.trans (@List.perm_middle _ e pre _).symm ?_
    refine List.Perm.append_left pre (List.Perm.cons e ?_)
    simpa using (@List.perm_append_comm _ [last] front)

theorem HoldsOn_replace (id : Int) (P : Segment → Prop) (pre post : List Segment)
    (e x : Segment) (hid : x.segmentID = e.segmentID) (hP : e.segmentID = id → P e → P x)
    (h : HoldsOn id P (pre ++ e :: post)) : HoldsOn id P (pre ++ x :: post) := by
  obtain ⟨⟨s, hs, hsid⟩, hall⟩ := h
  constructor
  · rcases List.mem_append.mp hs with hm | hm
    · exact ⟨s, List.mem_append_left _ hm, hsid⟩
    · rcases List.mem_cons.mp hm with rfl | hm
      · exact ⟨x, by simp, hid.trans hsid⟩
      · exact ⟨s, by simp [hm], hsid⟩
  · intro s hs hsid
    rcases List.mem_append.mp hs with hm | hm
    · exact hall s (List.mem_append_left _ hm) hsid
    · rcases List.mem_cons.mp hm with rfl | hm
      · exact hP (hid.symm.trans hsid) (hall e (by simp) (hid.symm.trans hsid))
      · exact hall s (by simp [hm]) hsid

theorem HoldsOn_swapRemove (id : Int) (P : Segment → Prop) (pre post : List Segment)
    (e : Segment) (hne : e.segmentID ≠ id) (h : HoldsOn id P (pre ++ e :: post)) :
    HoldsOn id P (pre ++ (post.getLast?.toList ++ post.dropLast)) := by
  obtain ⟨⟨s, hs, hsid⟩, hall⟩ := h
  have hperm := swapRemove_perm pre post e
  constructor
  · rcases List.mem_cons.mp (hperm.mem_iff.mpr hs) with rfl | hm
    · exact absurd hsid hne
    · exact ⟨s, hm, hsid⟩
  · intro s hs hsid
    exact hall s (hperm.mem_iff.mp (List.mem_cons_of_mem _ hs)) hsid

theorem HoldsOn_exec (nc : Int → CollectionSchema → Except GoError Collection)
    (id : Int) (P : Segment → Prop) (r : ReplicaImpl) (call : ReplicaCall)
    (hstat : ∀ s : Segment, ∀ n : Int, P s → P { s with memorySize := 0, numRows := n })
    (hread : call.readsStatisticsOf id = true → ∀ s : Segment, P { s with isNew := false })
    (hcall : call.addsOrRemoves id = false)
    (h : HoldsOn id P r.segments) : HoldsOn id P (call.exec nc r).2.segments := by
  cases call with
  | getCollectionNum => exact h
  | addCollection c schema =>
    simp only [ReplicaCall.exec, ReplicaImpl.addCollection]
    cases r.collections.lookup c with
    | some _ => exact h
    | none => cases nc c schema <;> exact h
  | removeCollection c => exact h
  | getCollectionByID c => exact h
  | hasCollection c => exact h
  | hasSegment i => exact h
  | getSegmentByID i => exact h
  | addSegment i c p ch =>
    have hne : i ≠ id := by simpa [ReplicaCall.addsOrRemoves] using hcall
    obtain ⟨⟨s, hs, hsid⟩, hall⟩ := h
    simp only [ReplicaCall.exec, ReplicaImpl.addSegment]
    refine ⟨⟨s, List.mem_append_left _ hs, hsid⟩, ?_⟩
    intro x hx hxid
    rcases List.mem_append.mp hx with hm | hm
    · exact hall x hm hxid
    · rw [List.mem_singleton] at hm
      subst hm
      exact absurd hxid hne
  | removeSegment i =>
    have hne : i ≠ id := by simpa [ReplicaCall.addsOrRemoves] using hcall
    rcases rangeSegments_cases r.segments i with ⟨hn, _⟩ | ⟨pre, e, post, hs, _, he, hr⟩
    · simp only [ReplicaCall.exec, ReplicaImpl.removeSegment, hn]; exact h
    · simp only [ReplicaCall.exec, r.removeSegment_of_range i pre post e hs hr]
      rw [hs] at h
      exact HoldsOn_swapRemove id P pre post e (he ▸ hne) h
  | updateStatistics i n =>
    rcases rangeSegments_cases r.segments i with ⟨hn, _⟩ | ⟨pre, e, post, hs, _, _, hr⟩
    · simp only [ReplicaCall.exec, ReplicaImpl.updateStatistics, hn]; exact h
    · simp only [ReplicaCall.exec, r.updateStatistics_of_range i n pre post e hs hr]
      rw [hs] at h
      exact HoldsOn_replace id P pre post e _ rfl (fun _ hp => hstat e _ hp) h
  | getSegmentStatisticsUpdates i =>
    rcases rangeSegments_cases r.segments i with ⟨hn, _⟩ | ⟨pre, e, post, hs, _, he, hr⟩
    · simp only [ReplicaCall.exec, ReplicaImpl.getSegmentStatisticsUpdates, hn]; exact h
    · simp only [ReplicaCall.exec, r.getSegmentStatisticsUpdates_of_range i pre post e hs hr]
      rw [hs] at h
      refine HoldsOn_replace id P pre post e _ rfl (fun heid _ => ?_) h
      exact hread (by simp [ReplicaCall.readsStatisticsOf, ← he, heid]) e

theorem HoldsOn_runCalls (nc : Int → CollectionSchema → Except GoError Collection)
    (id : Int) (P : Segment → Prop) (calls : List ReplicaCall) (r : ReplicaImpl)
    (hstat : ∀ s : Segment, ∀ n : Int, P s → P { s with memorySize := 0, numRows := n })
    (hread : ∀ call ∈ calls, call.readsStatisticsOf id = true →
      ∀ s : Segment, P { s with isNew := false })
    (hcall : ∀ call ∈ calls, call.addsOrRemoves id = false)
    (h : HoldsOn id P r.segments) : HoldsOn id P (runCalls nc r calls).segments := by
  induction calls generalizing r with
  | nil => exact h
  | cons call rest ih =>
    simp only [runCalls, List.foldl_cons]
    refine ih _ (fun c hc => hread c (List.mem_cons_of_mem _ hc))
      (fun c hc => hcall c (List.mem_cons_of_mem _ hc)) ?_
    exact HoldsOn_exec nc id P r call hstat (hread call (List.mem_cons_self _ _))
      (hcall call (List.mem_cons_self _ _)) h

theorem HoldsOn_first (id : Int) (P : Segment → Prop) (segs : List Segment)
    (h : HoldsOn id P segs) :
    ∃ pre e post, segs = pre ++ e :: post ∧ rangeSegments segs id = some (pre.length, e)
      ∧ e.segmentID = id ∧ P e := by
  rcases rangeSegments_cases segs id with ⟨_, hall⟩ | ⟨pre, e, post, hs, _, he, hr⟩
  · obtain ⟨⟨s, hs, hsid⟩, _⟩ := h
    exact absurd hsid (hall s hs)
  · exact ⟨pre, e, post, hs, hr, he, h.2 e (by simp [hs]) he⟩

/-! ## Counting the segments with one ID -/

theorem idCount_append (id : Int) (l₁ l₂ : List Segment) :
    idCount id (l₁ ++ l₂) = idCount id l₁ + idCount id l₂ := by
  simp [idCount]

theorem idCount_cons (id : Int) (e : Segment) (l : List Segment) :
    idCount id (e :: l) = idCount id l + if e.segmentID = id then 1 else 0 := by
  simp [idCount, List.count_cons]

theorem idCount_eq_zero_iff (id : Int) (l : List Segment) :
    idCount id l = 0 ↔ ∀ s ∈ l, s.segmentID ≠ id := by
  simp [idCount, List.count_eq_zero]

theorem idCount_replace (id : Int) (pre post : List Segment) (e x : Segment)
    (hid : x.segmentID = e.segmentID) :
    idCount id (pre ++ x :: post) = idCount id (pre ++ e :: post) := by
  simp [idCount_append, idCount_cons, hid]

theorem idCount_swapRemove (id : Int) (pre post : List Segment) (e : Segment) :
    idCount id (pre ++ (post.getLast?.toList ++ post.dropLast))
        + (if e.segmentID = id then 1 else 0)
      = idCount id (pre ++ e :: post) := by
  have hperm := (swapRemove_perm pre post e).map (fun s => s.segmentID)
  have hc := hperm.count_eq id
  rw [← idCount_cons]
  exact hc

theorem idCount_exec_le (nc : Int → CollectionSchema → Except GoError Collection)
    (id : Int) (r : ReplicaImpl) (call : ReplicaCall)
    (hcall : call.addsOrRemoves id = false) :
    idCount id (call.exec nc r).2.segments ≤ idCount id r.segments := by
  cases call with
  | getCollectionNum => exact le_refl _
  | addCollection c schema =>
    simp only [ReplicaCall.exec, ReplicaImpl.addCollection]
    cases r.collections.lookup c with
    | some _ => exact le_refl _
    | none => cases nc c schema <;> exact le_refl _
  | removeCollection c => exact le_refl _
  | getCollectionByID c => exact le_refl _
  | hasCollection c => exact le_refl _
  | hasSegment i => exact le_refl _
  | getSegmentByID i => exact le_refl _
  | addSegment i c p ch =>
    have hne : i ≠ id := by simpa [ReplicaCall.addsOrRemoves] using hcall
    simp only [ReplicaCall.exec, ReplicaImpl.addSegment, idCount_append, idCount_cons]
    simp [hne, idCount]
  | removeSegment i =>
    rcases rangeSegments_cases r.segments i with ⟨hn, _⟩ | ⟨pre, e, post, hs, _, _, hr⟩
    · simp only [ReplicaCall.exec, ReplicaImpl.removeSegment, hn]; exact le_refl _
    · simp only [ReplicaCall.exec, r.removeSegment_of_range i pre post e hs hr]
      rw [hs, ← idCount_swapRemove id pre post e]
      exact Nat.le_add_right _ _
  | updateStatistics i n =>
    rcases rangeSegments_cases r.segments i with ⟨hn, _⟩ | ⟨pre, e, post, hs, _, _, hr⟩
    · simp only [ReplicaCall.exec, ReplicaImpl.updateStatistics, hn]; exact le_refl _
    · simp only [ReplicaCall.exec, r.updateStatistics_of_range i n pre post e hs hr]
      rw [hs]
      exact le_of_eq (idCount_replace id pre post e _ rfl)
  | getSegmentStatisticsUpdates i =>
    rcases rangeSegments_cases r.segments i with ⟨hn, _⟩ | ⟨pre, e, post, hs, _, _, hr⟩
    · simp only [ReplicaCall.exec, ReplicaImpl.getSegmentStatisticsUpdates, hn]
      exact le_refl _
    · simp only [ReplicaCall.exec, r.getSegmentStatisticsUpdates_of_range i pre post e hs hr]
      rw [hs]
      exact le_of_eq (idCount_replace id pre post e _ rfl)

theorem idCount_runCalls_le (nc : Int → CollectionSchema → Except GoError Collection)
    (id : Int) (calls : List ReplicaCall) (r : ReplicaImpl)
    (hcall : ∀ call ∈ calls, call.addsOrRemoves id = false) :
    idCount id (runCalls nc r calls).segments ≤ idCount id r.segments := by
  induction calls generalizing r with
  | nil => exact le_refl _
  | cons call rest ih =>
    simp only [runCalls, List.foldl_cons]
    exact le_trans (ih _ (fun c hc => hcall c (List.mem_cons_of_mem _ hc)))
      (idCount_exec_le nc id r call (hcall call (List.mem_cons_self _ _)))

/-- When at most one segment has the ID and `e` has it, no segment around `e` has it. -/
theorem unique_of_idCount_le_one (id : Int) (pre post : List Segment) (e : Segment)
    (he : e.segmentID = id) (hc : idCount id (pre ++ e :: post) ≤ 1) :
    ∀ s ∈ pre ++ post, s.segmentID ≠ id := by
  rw [idCount_append, idCount_cons, if_pos he] at hc
  have h1 : idCount id pre = 0 := by omega
  have h2 : idCount id post = 0 := by omega
  intro s hs
  rcases List.mem_append.mp hs with hm | hm
  · exact (idCount_eq_zero_iff id pre).mp h1 s hm
  · exact (idCount_eq_zero_iff id post).mp h2 s hm

/-! ## Exactly-once start position -/

/-- C1: in a state without a segment `id`, after `addSegment(id, c, p, ch)` and any calls
other than `getSegmentStatisticsUpdates(id)`, `addSegment(id, ..)` and `removeSegment(id)`,
the first `getSegmentStatisticsUpdates(id)` succeeds with `IsNewSegment = true` and the
start position of channel `ch`; after any further calls other than `addSegment(id, ..)`
and `removeSegment(id)` (further statistics reads and `updateStatistics` included), a
later `getSegmentStatisticsUpdates(id)` succeeds with `IsNewSegment = false` and no
start position. -/
theorem C1_exactly_once_start_position
    (nc : Int → CollectionSchema → Except GoError Collection) (r : ReplicaImpl)
    (id c p : Int) (ch : String) (before later : List ReplicaCall)
    (hfresh : r.hasSegment id = false)
    (hbefore : ∀ call ∈ before,
      call.addsOrRemoves id = false ∧ call.readsStatisticsOf id = false)
    (hlater : ∀ call ∈ later, call.addsOrRemoves id = false) :
    (∃ u, ((runCalls nc (r.addSegment id c p ch).2 before).getSegmentStatisticsUpdates id).1
          = .ok u
        ∧ u.IsNewSegment = true ∧ u.StartPosition = some { ChannelName := ch }) ∧
    (∃ u, ((runCalls nc
            ((runCalls nc (r.addSegment id c p ch).2 before).getSegmentStatisticsUpdates id).2
            later).getSegmentStatisticsUpdates id).1 = .ok u
        ∧ u.IsNewSegment = false ∧ u.StartPosition = none) := by
  have hnone : ∀ s ∈ r.segments, s.segmentID ≠ id := (r.hasSegment_eq_false_iff id).mp hfresh
  -- the state right after `addSegment`
  have hadd : (r.addSegment id c p ch).2.segments
      = r.segments ++ [({
          segmentID := id, collectionID := c, partitionID := p, numRows := 0,
          memorySize := 0, isNew := true, createTime := 0, endTime := 0,
          startPosition := some { ChannelName := ch },
          endPosition := some { ChannelName := "" } } : Segment)] := rfl
  have H0 : HoldsOn id (fun s => s.isNew = true ∧ s.startPosition = some { ChannelName := ch })
      (r.addSegment id c p ch).2.segments := by
    rw [hadd]
    refine ⟨⟨_, List.mem_append_right _ (List.mem_singleton_self _), rfl⟩, ?_⟩
    intro s hs hsid
    rcases List.mem_append.mp hs with hm | hm
    · exact absurd hsid (hnone s hm)
    · rw [List.mem_singleton] at hm
      subst hm
      exact ⟨rfl, rfl⟩
  have K0 : idCount id (r.addSegment id c p ch).2.segments ≤ 1 := by
    rw [hadd, idCount_append, (idCount_eq_zero_iff id r.segments).mpr hnone]
    simp [idCount]
  -- the state before the first read
  have H1 := HoldsOn_runCalls nc id _ before (r.addSegment id c p ch).2
    (fun s n hP => hP) (fun call hc hread => by rw [(hbefore call hc).2] at hread; cases hread)
    (fun call hc => (hbefore call hc).1) H0
  have K1 := le_trans (idCount_runCalls_le nc id before (r.addSegment id c p ch).2
    (fun call hc => (hbefore call hc).1)) K0
  obtain ⟨pre, e, post, hs, hr, he, hnew, hpos⟩ := HoldsOn_first id _ _ H1
  have hfirst := (runCalls nc (r.addSegment id c p ch).2 before).getSegmentStatisticsUpdates_of_range
    id pre post e hs hr
  rw [hfirst]
  refine ⟨⟨_, rfl, hnew, by simp [hnew, hpos]⟩, ?_⟩
  -- the state after the first read
  rw [hs] at K1
  have huniq := unique_of_idCount_le_one id pre post e he K1
  have H2 : HoldsOn id (fun s => s.isNew = false) (pre ++ { e with isNew := false } :: post) := by
    refine ⟨⟨{ e with isNew := false }, by simp, he⟩, ?_⟩
    intro s hs hsid
    rcases List.mem_append.mp hs with hm | hm
    · exact absurd hsid (huniq s (List.mem_append_left _ hm))
    · rcases List.mem_cons.mp hm with rfl | hm
      · rfl
      · exact absurd hsid (huniq s (List.mem_append_right _ hm))
  have H3 := HoldsOn_runCalls nc id (fun s => s.isNew = false) later
    { runCalls nc (r.addSegment id c p ch).2 before with
      segments := pre ++ { e with isNew := false } :: post }
    (fun s n hP => hP) (fun _ _ _ _ => rfl) hlater H2
  obtain ⟨pre2, e2, post2, hs2, hr2, _, hnew2⟩ := HoldsOn_first id _ _ H3
  rw [ReplicaImpl.getSegmentStatisticsUpdates_of_range _ id pre2 post2 e2 hs2 hr2]
  exact ⟨_, rfl, hnew2, by simp [hnew2]⟩

/-- C1 at a concrete input: segment 7 is added to the empty replica on channel "dm0",
with calls on it and on other segments before and after the first read. -/
theorem C1_exactly_once_start_position_witness :
    (newReplica.hasSegment 7 = false ∧
      (∀ call ∈ [ReplicaCall.updateStatistics 7 5, ReplicaCall.getSegmentStatisticsUpdates 8],
        call.addsOrRemoves 7 = false ∧ call.readsStatisticsOf 7 = false) ∧
      (∀ call ∈ [ReplicaCall.updateStatistics 7 3, ReplicaCall.getSegmentStatisticsUpdates 7,
          ReplicaCall.addSegment 9 1 2 "dm1", ReplicaCall.removeSegment 9],
        call.addsOrRemoves 7 = false)) ∧
    ((∃ u, ((runCalls newCollectionOk (newReplica.addSegment 7 1 2 "dm0").2
            [ReplicaCall.updateStatistics 7 5,
              ReplicaCall.getSegmentStatisticsUpdates 8]).getSegmentStatisticsUpdates 7).1
          = .ok u
        ∧ u.IsNewSegment = true ∧ u.StartPosition = some { ChannelName := "dm0" }) ∧
    (∃ u, ((runCalls newCollectionOk
            ((runCalls newCollectionOk (newReplica.addSegment 7 1 2 "dm0").2
              [ReplicaCall.updateStatistics 7 5,
                ReplicaCall.getSegmentStatisticsUpdates 8]).getSegmentStatisticsUpdates 7).2
            [ReplicaCall.updateStatistics 7 3, ReplicaCall.getSegmentStatisticsUpdates 7,
              ReplicaCall.addSegment 9 1 2 "dm1",
              ReplicaCall.removeSegment 9]).getSegmentStatisticsUpdates 7).1 = .ok u
        ∧ u.IsNewSegment = false ∧ u.StartPosition = none)) :=
  ⟨⟨by decide, by decide, by decide⟩,
    C1_exactly_once_start_position newCollectionOk newReplica 7 1 2 "dm0" _ _
      (by decide) (by decide) (by decide)⟩

/-! ## Removal -/

/-- C2 fails when the ID occurs twice: after two `addSegment(1, ..)` calls on the empty
replica, `removeSegment(1)` succeeds and segment 1 is still there. -/
theorem C2_removal_counterexample :
    (((newReplica.addSegment 1 1 1 "dm0").2.addSegment 1 1 1 "dm0").2.removeSegment 1).1 = none
    ∧ (((newReplica.addSegment 1 1 1 "dm0").2.addSegment 1 1 1 "dm0").2.removeSegment 1).2.hasSegment 1
        = true
    ∧ errorOf ((((newReplica.addSegment 1 1 1 "dm0").2.addSegment 1 1 1 "dm0").2.removeSegment
        1).2.getSegmentByID 1) = none := by
  refine ⟨rfl, rfl, rfl⟩

theorem removeSegment_range_none (r : ReplicaImpl) (S : Int) (hone : idCount S r.segments ≤ 1) :
    rangeSegments (r.removeSegment S).2.segments S = none := by
  rcases rangeSegments_cases r.segments S with ⟨hn, _⟩ | ⟨pre, e, post, hs, _, he, hr⟩
  · simp only [ReplicaImpl.removeSegment, hn]
  · rw [r.removeSegment_of_range S pre post e hs hr]
    have hc := idCount_swapRemove S pre post e
    rw [if_pos he, ← hs] at hc
    have hzero : idCount S (pre ++ (post.getLast?.toList ++ post.dropLast)) = 0 := by omega
    exact (rangeSegments_eq_none_iff _ S).mpr ((idCount_eq_zero_iff S _).mp hzero)

/-- C2 (amended): in a state where at most one segment has ID `S`, after `removeSegment(S)`
returns without error, `hasSegment(S)` is false and `getSegmentByID(S)` fails with the
cannot-find-segment error. -/
theorem C2_removal (r : ReplicaImpl) (S : Int) (hone : idCount S r.segments ≤ 1)
    (hok : (r.removeSegment S).1 = none) :
    (r.removeSegment S).2.hasSegment S = false
    ∧ (r.removeSegment S).2.getSegmentByID S = .error (.cannotFindSegment S) := by
  have hrange := removeSegment_range_none r S hone
  have hran : rangeSegments r.segments S ≠ none := by
    intro hn
    simp [ReplicaImpl.removeSegment, hn] at hok
  constructor
  · simp only [ReplicaImpl.hasSegment, hrange]
  · simp only [ReplicaImpl.getSegmentByID, hrange]

/-- C2 (amended) at a concrete input: segments 1 and 2, segment 1 removed. -/
theorem C2_removal_witness :
    (idCount 1 ((newReplica.addSegment 1 1 1 "dm0").2.addSegment 2 1 1 "dm0").2.segments ≤ 1
      ∧ (((newReplica.addSegment 1 1 1 "dm0").2.addSegment 2 1 1 "dm0").2.removeSegment 1).1
        = none)
    ∧ ((((newReplica.addSegment 1 1 1 "dm0").2.addSegment 2 1 1 "dm0").2.removeSegment
          1).2.hasSegment 1 = false
      ∧ (((newReplica.addSegment 1 1 1 "dm0").2.addSegment 2 1 1 "dm0").2.removeSegment
          1).2.getSegmentByID 1 = .error (.cannotFindSegment 1)) :=
  ⟨⟨by decide, rfl⟩,
    C2_removal ((newReplica.addSegment 1 1 1 "dm0").2.addSegment 2 1 1 "dm0").2 1
      (by decide) rfl⟩

/-! ## Row accumulation -/

theorem wrapInt64_add_wrapInt64 (a d : Int) :
    wrapInt64 (wrapInt64 a + d) = wrapInt64 (a + d) := by
  unfold wrapInt64
  omega

theorem updateStatistics_fold (S : Int) (ds : List Int) (r : ReplicaImpl)
    (pre post : List Segment) (e : Segment) (a : Int)
    (hs : r.segments = pre ++ e :: post) (hpre : ∀ s ∈ pre, s.segmentID ≠ S)
    (he : e.segmentID = S) (hrows : e.numRows = wrapInt64 a) :
    ∃ x, (ds.foldl (fun q d => (q.updateStatistics S d).2) r).segments = pre ++ x :: post
      ∧ x.segmentID = S ∧ x.numRows = wrapInt64 (a + ds.sum) := by
  induction ds generalizing r e a with
  | nil => exact ⟨e, hs, he, by simpa using hrows⟩
  | cons d rest ih =>
    have hr : rangeSegments r.segments S = some (pre.length, e) := by
      rw [hs]; exact rangeSegments_of_split pre post e S hpre he
    have hstep := r.updateStatistics_of_range S d pre post e hs hr
    simp only [List.foldl_cons, hstep]
    obtain ⟨x, hx, hxid, hxrows⟩ := ih
      { r with segments :=
          pre ++ { e with memorySize := 0, numRows := wrapInt64 (e.numRows + d) } :: post }
      { e with memorySize := 0, numRows := wrapInt64 (e.numRows + d) } (a + d) rfl he
      (by simp only [hrows]; exact wrapInt64_add_wrapInt64 a d)
    exact ⟨x, hx, hxid, by rw [hxrows, List.sum_cons, Int.add_assoc]⟩

/-- C3: in a state without a segment `S`, after `addSegment(S, ..)` and then
`updateStatistics(S, d)` for each `d` of a list of deltas in turn, `getSegmentByID(S)`
returns a segment whose `numRows` is the sum of the deltas wrapped to `int64`, and
`getSegmentStatisticsUpdates(S)` reports that same `NumRows`. -/
theorem C3_row_accumulation (r : ReplicaImpl) (S c p : Int) (ch : String) (ds : List Int)
    (hfresh : r.hasSegment S = false) :
    (∃ seg, (ds.foldl (fun q d => (q.updateStatistics S d).2)
          (r.addSegment S c p ch).2).getSegmentByID S = .ok seg
        ∧ seg.numRows = wrapInt64 ds.sum)
    ∧ (∃ u, ((ds.foldl (fun q d => (q.updateStatistics S d).2)
          (r.addSegment S c p ch).2).getSegmentStatisticsUpdates S).1 = .ok u
        ∧ u.NumRows = wrapInt64 ds.sum) := by
  have hnone : ∀ s ∈ r.segments, s.segmentID ≠ S := (r.hasSegment_eq_false_iff S).mp hfresh
  obtain ⟨x, hx, hxid, hxrows⟩ := updateStatistics_fold S ds (r.addSegment S c p ch).2
    r.segments [] _ 0 rfl hnone rfl rfl
  rw [Int.zero_add] at hxrows
  have hr := rangeSegments_of_split r.segments [] x S hnone hxid
  rw [← hx] at hr
  constructor
  · exact ⟨x, by simp only [ReplicaImpl.getSegmentByID, hr], hxrows⟩
  · rw [ReplicaImpl.getSegmentStatisticsUpdates_of_range _ S r.segments [] x hx hr]
    exact ⟨_, rfl, hxrows⟩

/-- C3 at the input of the specification: deltas 5 then 3 on a fresh segment give 8. -/
theorem C3_row_accumulation_witness :
    newReplica.hasSegment 1 = false
    ∧ ((∃ seg, ([5, 3].foldl (fun q d => (q.updateStatistics 1 d).2)
          (newReplica.addSegment 1 10 20 "dm0").2).getSegmentByID 1 = .ok seg
        ∧ seg.numRows = wrapInt64 ([5, 3] : List Int).sum)
      ∧ (∃ u, (([5, 3].foldl (fun q d => (q.updateStatistics 1 d).2)
          (newReplica.addSegment 1 10 20 "dm0").2).getSegmentStatisticsUpdates 1).1 = .ok u
        ∧ u.NumRows = wrapInt64 ([5, 3] : List Int).sum))
    ∧ wrapInt64 ([5, 3] : List Int).sum = 8 :=
  ⟨by decide, C3_row_accumulation newReplica 1 10 20 "dm0" [5, 3] (by decide), by decide⟩

/-! ## Errors and absence -/

/-- C4: each of `removeSegment(id)`, `updateStatistics(id, d)`,
`getSegmentStatisticsUpdates(id)` and `getSegmentByID(id)` returns an error exactly when
`hasSegment(id)` is false in the state of the call. -/
theorem C4_error_iff_absent (r : ReplicaImpl) (id d : Int) :
    ((r.removeSegment id).1 ≠ none ↔ r.hasSegment id = false)
    ∧ ((r.updateStatistics id d).1 ≠ none ↔ r.hasSegment id = false)
    ∧ (errorOf (r.getSegmentStatisticsUpdates id).1 ≠ none ↔ r.hasSegment id = false)
    ∧ (errorOf (r.getSegmentByID id) ≠ none ↔ r.hasSegment id = false) := by
  rcases rangeSegments_cases r.segments id with ⟨hn, _⟩ | ⟨pre, e, post, hs, _, _, hr⟩
  · simp [ReplicaImpl.removeSegment, ReplicaImpl.updateStatistics,
      ReplicaImpl.getSegmentStatisticsUpdates, ReplicaImpl.getSegmentByID,
      ReplicaImpl.hasSegment, errorOf, hn]
  · rw [r.removeSegment_of_range id pre post e hs hr,
      r.updateStatistics_of_range id d pre post e hs hr,
      r.getSegmentStatisticsUpdates_of_range id pre post e hs hr]
    simp [ReplicaImpl.getSegmentByID, ReplicaImpl.hasSegment, errorOf, hr]

/-- C5: whenever a call on the replica returns an error, the state after the call is the
state before it; this covers `removeSegment`, `updateStatistics`,
`getSegmentStatisticsUpdates`, `getSegmentByID`, `getCollectionByID` and `addCollection`
(the other calls never return an error). -/
theorem C5_failed_call_keeps_state
    (nc : Int → CollectionSchema → Except GoError Collection) (r : ReplicaImpl)
    (call : ReplicaCall) (err : GoError) (hfail : (call.exec nc r).1 = some err) :
    (call.exec nc r).2 = r := by
  cases call with
  | getCollectionNum => rfl
  | addCollection c schema =>
    simp only [ReplicaCall.exec, ReplicaImpl.addCollection] at hfail ⊢
    cases hl : r.collections.lookup c with
    | some _ => rfl
    | none =>
      rw [hl] at hfail
      cases hn : nc c schema with
      | error _ => rfl
      | ok coll => rw [hn] at hfail; cases hfail
  | removeCollection c => cases hfail
  | getCollectionByID c => rfl
  | hasCollection c => rfl
  | hasSegment i => rfl
  | getSegmentByID i => rfl
  | addSegment i c p ch => cases hfail
  | removeSegment i =>
    rcases rangeSegments_cases r.segments i with ⟨hn, _⟩ | ⟨pre, e, post, hs, _, _, hr⟩
    · simp only [ReplicaCall.exec, ReplicaImpl.removeSegment, hn]
    · simp only [ReplicaCall.exec, r.removeSegment_of_range i pre post e hs hr] at hfail
      cases hfail
  | updateStatistics i n =>
    rcases rangeSegments_cases r.segments i with ⟨hn, _⟩ | ⟨pre, e, post, hs, _, _, hr⟩
    · simp only [ReplicaCall.exec, ReplicaImpl.updateStatistics, hn]
    · simp only [ReplicaCall.exec, r.updateStatistics_of_range i n pre post e hs hr] at hfail
      cases hfail
  | getSegmentStatisticsUpdates i =>
    rcases rangeSegments_cases r.segments i with ⟨hn, _⟩ | ⟨pre, e, post, hs, _, _, hr⟩
    · simp only [ReplicaCall.exec, ReplicaImpl.getSegmentStatisticsUpdates, hn]
    · simp only [ReplicaCall.exec, r.getSegmentStatisticsUpdates_of_range i pre post e hs hr,
        errorOf] at hfail
      cases hfail

/-- C5 at a concrete input: `updateStatistics(2, 5)` on a replica that only holds
segment 1. -/
theorem C5_failed_call_keeps_state_witness :
    ((ReplicaCall.updateStatistics 2 5).exec newCollectionOk
        (newReplica.addSegment 1 1 1 "dm0").2).1 = some (GoError.noSegment 2)
    ∧ ((ReplicaCall.updateStatistics 2 5).exec newCollectionOk
        (newReplica.addSegment 1 1 1 "dm0").2).2 = (newReplica.addSegment 1 1 1 "dm0").2 :=
  ⟨rfl, C5_failed_call_keeps_state newCollectionOk (newReplica.addSegment 1 1 1 "dm0").2
    (ReplicaCall.updateStatistics 2 5) (GoError.noSegment 2) rfl⟩

/-! ## What the segment operations read and write -/

/-- C6: when `hasSegment(id)` holds, `getSegmentStatisticsUpdates(id)` succeeds with a
report whose `SegmentID` is `id` and whose `NumRows`, `MemorySize` and `IsNewSegment` are
the `numRows`, `memorySize` and `isNew` that the first segment of the list with that ID
has before the call; the start position is that segment's when it is new, absent
otherwise. -/
theorem C6_statistics_report (r : ReplicaImpl) (id : Int) (hhas : r.hasSegment id = true) :
    ∃ seg u, r.segments.find? (fun s => decide (s.segmentID = id)) = some seg
      ∧ (r.getSegmentStatisticsUpdates id).1 = .ok u
      ∧ u.SegmentID = id ∧ u.NumRows = seg.numRows ∧ u.MemorySize = seg.memorySize
      ∧ u.IsNewSegment = seg.isNew
      ∧ u.StartPosition = (if seg.isNew then seg.startPosition else none) := by
  rcases rangeSegments_cases r.segments id with ⟨hn, _⟩ | ⟨pre, e, post, hs, _, _, hr⟩
  · simp [ReplicaImpl.hasSegment, hn] at hhas
  · have hfind := rangeSegments_eq_find r.segments id
    rw [hr] at hfind
    rw [r.getSegmentStatisticsUpdates_of_range id pre post e hs hr]
    exact ⟨e, _, hfind.symm, rfl, rfl, rfl, rfl, rfl, rfl⟩

/-- C6 at a concrete input: two segments with ID 1, the first with 5 rows. -/
theorem C6_statistics_report_witness :
    (((newReplica.addSegment 1 1 1 "dm0").2.addSegment 1 2 2 "dm1").2.updateStatistics
        1 5).2.hasSegment 1 = true
    ∧ ∃ seg u, (((newReplica.addSegment 1 1 1 "dm0").2.addSegment 1 2 2 "dm1").2.updateStatistics
          1 5).2.segments.find? (fun s => decide (s.segmentID = 1)) = some seg
      ∧ ((((newReplica.addSegment 1 1 1 "dm0").2.addSegment 1 2 2 "dm1").2.updateStatistics
          1 5).2.getSegmentStatisticsUpdates 1).1 = .ok u
      ∧ u.SegmentID = 1 ∧ u.NumRows = seg.numRows ∧ u.MemorySize = seg.memorySize
      ∧ u.IsNewSegment = seg.isNew
      ∧ u.StartPosition = (if seg.isNew then seg.startPosition else none) :=
  ⟨by decide, C6_statistics_report _ 1 (by decide)⟩

/-- C7: when `hasSegment(id)` holds, `updateStatistics(id, d)` returns no error and the
first segment with that ID, which stays the first with that ID, has afterwards its
previous `numRows` plus `d` (wrapped to `int64`) and `memorySize` zero. -/
theorem C7_update_statistics (r : ReplicaImpl) (id d : Int) (hhas : r.hasSegment id = true) :
    (r.updateStatistics id d).1 = none
    ∧ ∃ seg seg', r.segments.find? (fun s => decide (s.segmentID = id)) = some seg
      ∧ (r.updateStatistics id d).2.segments.find? (fun s => decide (s.segmentID = id))
          = some seg'
      ∧ seg'.numRows = wrapInt64 (seg.numRows + d) ∧ seg'.memorySize = 0 := by
  rcases rangeSegments_cases r.segments id with ⟨hn, _⟩ | ⟨pre, e, post, hs, hpre, he, hr⟩
  · simp [ReplicaImpl.hasSegment, hn] at hhas
  · have hfind := rangeSegments_eq_find r.segments id
    rw [hr] at hfind
    rw [r.updateStatistics_of_range id d pre post e hs hr]
    refine ⟨rfl, e, { e with memorySize := 0, numRows := wrapInt64 (e.numRows + d) },
      hfind.symm, ?_, rfl, rfl⟩
    have hafter := rangeSegments_of_split pre post
      { e with memorySize := 0, numRows := wrapInt64 (e.numRows + d) } id hpre he
    rw [← rangeSegments_eq_find]
    simp only [hafter, Option.map_some']

/-- C7 at a concrete input: a second update of 3 rows on a segment holding 5. -/
theorem C7_update_statistics_witness :
    ((newReplica.addSegment 1 1 1 "dm0").2.updateStatistics 1 5).2.hasSegment 1 = true
    ∧ ((((newReplica.addSegment 1 1 1 "dm0").2.updateStatistics 1 5).2.updateStatistics 1 3).1
        = none
      ∧ ∃ seg seg', ((newReplica.addSegment 1 1 1 "dm0").2.updateStatistics 1 5).2.segments.find?
            (fun s => decide (s.segmentID = 1)) = some seg
        ∧ (((newReplica.addSegment 1 1 1 "dm0").2.updateStatistics 1 5).2.updateStatistics
            1 3).2.segments.find? (fun s => decide (s.segmentID = 1)) = some seg'
        ∧ seg'.numRows = wrapInt64 (seg.numRows + 3) ∧ seg'.memorySize = 0) :=
  ⟨by decide, C7_update_statistics _ 1 3 (by decide)⟩

/-- C8: in a state without a segment `id`, `addSegment(id, c, p, ch)` returns no error,
afterwards `hasSegment(id)` is true and `getSegmentByID(id)` returns a segment with
`segmentID = id`, `collectionID = c`, `partitionID = p`, no rows, `memorySize` zero,
`isNew` set and the start position of channel `ch`. -/
theorem C8_add_segment (r : ReplicaImpl) (id c p : Int) (ch : String)
    (hfresh : r.hasSegment id = false) :
    (r.addSegment id c p ch).1 = none
    ∧ (r.addSegment id c p ch).2.hasSegment id = true
    ∧ ∃ seg, (r.addSegment id c p ch).2.getSegmentByID id = .ok seg
      ∧ seg.segmentID = id ∧ seg.collectionID = c ∧ seg.partitionID = p
      ∧ seg.numRows = 0 ∧ seg.memorySize = 0 ∧ seg.isNew = true
      ∧ seg.startPosition = some { ChannelName := ch } := by
  have hnone : ∀ s ∈ r.segments, s.segmentID ≠ id := (r.hasSegment_eq_false_iff id).mp hfresh
  have hr := rangeSegments_of_split r.segments []
    { segmentID := id, collectionID := c, partitionID := p, numRows := 0, memorySize := 0,
      isNew := true, createTime := 0, endTime := 0,
      startPosition := some { ChannelName := ch },
      endPosition := some { ChannelName := "" } } id hnone rfl
  have hadd : (r.addSegment id c p ch).2.segments
      = r.segments ++ [({
          segmentID := id, collectionID := c, partitionID := p, numRows := 0,
          memorySize := 0, isNew := true, createTime := 0, endTime := 0,
          startPosition := some { ChannelName := ch },
          endPosition := some { ChannelName := "" } } : Segment)] := rfl
  rw [← hadd] at hr
  refine ⟨rfl, ?_, ?_⟩
  · simp only [ReplicaImpl.hasSegment, hr]
  · simp only [ReplicaImpl.getSegmentByID, hr]
    exact ⟨_, rfl, rfl, rfl, rfl, rfl, rfl, rfl, rfl⟩

/-- C8 at a concrete input: segment 2 added to a replica holding segment 1. -/
theorem C8_add_segment_witness :
    (newReplica.addSegment 1 1 1 "dm0").2.hasSegment 2 = false
    ∧ (((newReplica.addSegment 1 1 1 "dm0").2.addSegment 2 10 20 "dm1").1 = none
      ∧ ((newReplica.addSegment 1 1 1 "dm0").2.addSegment 2 10 20 "dm1").2.hasSegment 2 = true
      ∧ ∃ seg, ((newReplica.addSegment 1 1 1 "dm0").2.addSegment 2 10 20 "dm1").2.getSegmentByID
            2 = .ok seg
        ∧ seg.segmentID = 2 ∧ seg.collectionID = 10 ∧ seg.partitionID = 20
        ∧ seg.numRows = 0 ∧ seg.memorySize = 0 ∧ seg.isNew = true
        ∧ seg.startPosition = some { ChannelName := "dm1" }) :=
  ⟨by decide, C8_add_segment _ 2 10 20 "dm1" (by decide)⟩

/-! ## No transition back to new -/

theorem addsOrRemoves_cases (id : Int) (call : ReplicaCall)
    (hcall : call.addsSegment id = false) :
    call.addsOrRemoves id = false ∨ call = .removeSegment id := by
  cases call <;> simp_all [ReplicaCall.addsSegment, ReplicaCall.addsOrRemoves]
  omega

theorem idCount_le_one_of_nodup (segs : List Segment)
    (hdistinct : (segs.map (fun s => s.segmentID)).Nodup) (id : Int) : idCount id segs ≤ 1 :=
  List.nodup_iff_count_le_one.mp hdistinct id

theorem HoldsOn_of_nodup (r : ReplicaImpl) (id : Int) (seg : Segment) (P : Segment → Prop)
    (hdistinct : (r.segments.map (fun s => s.segmentID)).Nodup)
    (hseg : r.getSegmentByID id = .ok seg) (hP : P seg) : HoldsOn id P r.segments := by
  rcases rangeSegments_cases r.segments id with ⟨hn, _⟩ | ⟨pre, e, post, hs, _, he, hr⟩
  · simp [ReplicaImpl.getSegmentByID, hn] at hseg
  · simp only [ReplicaImpl.getSegmentByID, hr, Except.ok.injEq] at hseg
    subst hseg
    have hone := idCount_le_one_of_nodup r.segments hdistinct id
    rw [hs] at hone ⊢
    have huniq := unique_of_idCount_le_one id pre post e he hone
    refine ⟨⟨e, by simp, he⟩, ?_⟩
    intro s hs hsid
    rcases List.mem_append.mp hs with hm | hm
    · exact absurd hsid (huniq s (List.mem_append_left _ hm))
    · rcases List.mem_cons.mp hm with rfl | hm
      · exact hP
      · exact absurd hsid (huniq s (List.mem_append_right _ hm))

/-- C9: in a state whose segment IDs are pairwise distinct, if the segment with ID `id`
has `isNew = false`, then after any single call other than `addSegment(id, ..)`
(`updateStatistics`, `getSegmentStatisticsUpdates` and `removeSegment` with any arguments,
`addSegment` of another ID, the collection calls and the reads), the segment with ID `id`,
when `getSegmentByID(id)` still finds one, has `isNew = false`; and in every state
`updateStatistics` leaves the `isNew` flag of every slot of the list as it was. -/
theorem C9_no_transition_back_to_new
    (nc : Int → CollectionSchema → Except GoError Collection) (r : ReplicaImpl) :
    (∀ (id : Int) (seg : Segment) (call : ReplicaCall),
      (r.segments.map (fun s => s.segmentID)).Nodup →
      r.getSegmentByID id = .ok seg → seg.isNew = false →
      call.addsSegment id = false →
      ∀ seg', (call.exec nc r).2.getSegmentByID id = .ok seg' → seg'.isNew = false)
    ∧ ∀ i n : Int, (r.updateStatistics i n).2.segments.map (fun s => s.isNew)
        = r.segments.map (fun s => s.isNew) := by
  constructor
  · intro id seg call hdistinct hseg hold hcall seg' hafter
    rcases addsOrRemoves_cases id call hcall with hkeep | rfl
    · have H := HoldsOn_of_nodup r id seg (fun s => s.isNew = false) hdistinct hseg hold
      have H' := HoldsOn_exec nc id (fun s => s.isNew = false) r call (fun _ _ hP => hP)
        (fun _ _ => rfl) hkeep H
      obtain ⟨pre, e, post, _, hr, _, hnew⟩ := HoldsOn_first id _ _ H'
      simp only [ReplicaImpl.getSegmentByID, hr, Except.ok.injEq] at hafter
      rw [← hafter]; exact hnew
    · have hrange := removeSegment_range_none r id
        (idCount_le_one_of_nodup r.segments hdistinct id)
      simp [ReplicaCall.exec, ReplicaImpl.getSegmentByID, hrange] at hafter
  · intro i n
    rcases rangeSegments_cases r.segments i with ⟨hn, _⟩ | ⟨pre, e, post, hs, _, _, hr⟩
    · simp only [ReplicaImpl.updateStatistics, hn]
    · rw [r.updateStatistics_of_range i n pre post e hs hr, hs]
      simp

/-- C9 at a concrete input: segments 1 and 2, segment 1 already read once, then a
statistics read of segment 1 again. -/
theorem C9_no_transition_back_to_new_witness :
    ((((newReplica.addSegment 1 1 1 "dm0").2.addSegment 2 1 1
          "dm0").2.getSegmentStatisticsUpdates 1).2.segments.map (fun s => s.segmentID)).Nodup
    ∧ (((newReplica.addSegment 1 1 1 "dm0").2.addSegment 2 1 1
          "dm0").2.getSegmentStatisticsUpdates 1).2.getSegmentByID 1
        = .ok { segmentID := 1, collectionID := 1, partitionID := 1, numRows := 0,
                memorySize := 0, isNew := false, createTime := 0, endTime := 0,
                startPosition := some { ChannelName := "dm0" },
                endPosition := some { ChannelName := "" } }
    ∧ (ReplicaCall.getSegmentStatisticsUpdates 1).addsSegment 1 = false
    ∧ ∀ seg', ((ReplicaCall.getSegmentStatisticsUpdates 1).exec newCollectionOk
          (((newReplica.addSegment 1 1 1 "dm0").2.addSegment 2 1 1
            "dm0").2.getSegmentStatisticsUpdates 1).2).2.getSegmentByID 1 = .ok seg' →
        seg'.isNew = false :=
  ⟨by decide, rfl, rfl,
    (C9_no_transition_back_to_new newCollectionOk
      (((newReplica.addSegment 1 1 1 "dm0").2.addSegment 2 1 1
        "dm0").2.getSegmentStatisticsUpdates 1).2).1 1 _
      (ReplicaCall.getSegmentStatisticsUpdates 1) (by decide) rfl rfl rfl⟩

/-! ## Collections -/

/-- C10: when `newCollection` succeeds on the arguments, `addCollection(id, schema)`
returns an error exactly when `id` is already registered; when it returns no error,
`hasCollection(id)` holds afterwards and `getCollectionNum` is one more than before; when
it returns an error the collection map is the one before the call. -/
theorem C10_add_collection (nc : Int → CollectionSchema → Except GoError Collection)
    (r : ReplicaImpl) (id : Int) (schema : CollectionSchema) (coll : Collection)
    (hnc : nc id schema = .ok coll) :
    ((r.addCollection nc id schema).1 ≠ none ↔ r.hasCollection id = true)
    ∧ ((r.addCollection nc id schema).1 = none →
        (r.addCollection nc id schema).2.hasCollection id = true
        ∧ (r.addCollection nc id schema).2.getCollectionNum = r.getCollectionNum + 1)
    ∧ ((r.addCollection nc id schema).1 ≠ none →
        (r.addCollection nc id schema).2.collections = r.collections) := by
  cases hl : r.collections.lookup id with
  | some old =>
    simp [ReplicaImpl.addCollection, ReplicaImpl.hasCollection, hl]
  | none =>
    have hmem : id ∉ r.collections := AList.lookup_eq_none.mp hl
    have hent : (r.collections.insert id coll).entries = ⟨id, coll⟩ :: r.collections.entries :=
      AList.insert_entries_of_neg hmem
    have hres : r.addCollection nc id schema
        = (none, { r with collections := r.collections.insert id coll }) := by
      simp only [ReplicaImpl.addCollection, hl, hnc]
    rw [hres]
    refine ⟨?_, ?_, ?_⟩
    · simp [ReplicaImpl.hasCollection, hl]
    · intro _
      constructor
      · simp only [ReplicaImpl.hasCollection, AList.lookup_insert, Option.isSome_some]
      · simp only [ReplicaImpl.getCollectionNum, hent, List.length_cons]
    · intro h; exact absurd rfl h

/-- C10 at a concrete input: collection 1 is added to the empty replica. -/
theorem C10_add_collection_witness :
    newCollectionOk 1 { Name := "col1", Description := "", AutoID := false, Fields := [] }
        = .ok { schema := { Name := "col1", Description := "", AutoID := false, Fields := [] },
                id := 1 }
    ∧ (((newReplica.addCollection newCollectionOk 1
            { Name := "col1", Description := "", AutoID := false, Fields := [] }).1 ≠ none
          ↔ newReplica.hasCollection 1 = true)
      ∧ ((newReplica.addCollection newCollectionOk 1
            { Name := "col1", Description := "", AutoID := false, Fields := [] }).1 = none →
          (newReplica.addCollection newCollectionOk 1
            { Name := "col1", Description := "", AutoID := false, Fields := [] }).2.hasCollection 1
            = true
          ∧ (newReplica.addCollection newCollectionOk 1
            { Name := "col1", Description := "", AutoID := false,
              Fields := [] }).2.getCollectionNum = newReplica.getCollectionNum + 1)
      ∧ ((newReplica.addCollection newCollectionOk 1
            { Name := "col1", Description := "", AutoID := false, Fields := [] }).1 ≠ none →
          (newReplica.addCollection newCollectionOk 1
            { Name := "col1", Description := "", AutoID := false, Fields := [] }).2.collections
            = newReplica.collections)) :=
  ⟨rfl, C10_add_collection newCollectionOk newReplica 1
    { Name := "col1", Description := "", AutoID := false, Fields := [] } _ rfl⟩

/-- C11: `getCollectionByID(id)` succeeds exactly when `hasCollection(id)` is true, and
then returns the collection that the map holds under `id`; it fails with the
collection-does-not-exist error exactly when `hasCollection(id)` is false. -/
theorem C11_get_collection_by_id (r : ReplicaImpl) (id : Int) :
    (r.hasCollection id = true ↔
      ∃ coll, r.getCollectionByID id = .ok coll ∧ (⟨id, coll⟩ : Sigma _) ∈ r.collections.entries)
    ∧ (r.hasCollection id = false ↔
      r.getCollectionByID id = .error (.collectionNotExist id)) := by
  cases hl : r.collections.lookup id with
  | none => simp [ReplicaImpl.hasCollection, ReplicaImpl.getCollectionByID, hl]
  | some coll =>
    have hmem : (⟨id, coll⟩ : Sigma _) ∈ r.collections.entries :=
      AList.mem_lookup_iff.mp (by rw [hl]; exact rfl)
    simp [ReplicaImpl.hasCollection, ReplicaImpl.getCollectionByID, hl, hmem]

/-! ## Swap-with-last removal -/

theorem findIdx_split (pre post : List Segment) (e : Segment) (id : Int)
    (hpre : ∀ s ∈ pre, s.segmentID ≠ id) (he : e.segmentID = id) :
    (pre ++ e :: post).findIdx (fun s => decide (s.segmentID = id)) = pre.length := by
  induction pre with
  | nil => simp [List.findIdx_cons, he]
  | cons a rest ih =>
    have ha : a.segmentID ≠ id := hpre a (List.mem_cons_self _ _)
    have hrest : ∀ s ∈ rest, s.segmentID ≠ id := fun s hs => hpre s (List.mem_cons_of_mem _ hs)
    simp [List.findIdx_cons, ha, ih hrest]

theorem swapRemove_eq_set_dropLast (pre post : List Segment) (e : Segment) :
    ∃ last, (pre ++ e :: post).getLast? = some last
      ∧ pre ++ (post.getLast?.toList ++ post.dropLast)
          = ((pre ++ e :: post).set pre.length last).dropLast := by
  rcases List.eq_nil_or_concat post with rfl | ⟨front, last, rfl⟩
  · refine ⟨e, by simp, ?_⟩
    rw [set_split]
    simp
  · rw [List.concat_eq_append]
    refine ⟨last, ?_, ?_⟩
    · have hre : pre ++ e :: (front ++ [last]) = (pre ++ e :: front) ++ [last] := by simp
      rw [hre, List.getLast?_concat]
    · rw [set_split]
      have hl : (front ++ [last]).getLast? = some last := by simp
      have hd : (front ++ [last]).dropLast = front := by simp
      have hre : pre ++ last :: (front ++ [last]) = (pre ++ last :: front) ++ [last] := by simp
      rw [hl, hd, hre, List.dropLast_concat]
      simp [Option.toList]

/-- C15: when `hasSegment(id)` holds, `removeSegment(id)` returns no error and leaves the
collection map alone; the new segment list is the old one with the slot of the first
segment with that ID overwritten by the old last element and the last slot dropped; it
is one shorter, holds one occurrence of `id` less, and together with the removed segment
it is a permutation of the old list (every other segment is still there, unchanged). -/
theorem C15_remove_segment_swap (r : ReplicaImpl) (id : Int) (hhas : r.hasSegment id = true) :
    (r.removeSegment id).1 = none
    ∧ (r.removeSegment id).2.collections = r.collections
    ∧ (∃ last, r.segments.getLast? = some last
        ∧ (r.removeSegment id).2.segments
          = (r.segments.set (r.segments.findIdx (fun s => decide (s.segmentID = id)))
              last).dropLast)
    ∧ (r.removeSegment id).2.segments.length + 1 = r.segments.length
    ∧ idCount id (r.removeSegment id).2.segments + 1 = idCount id r.segments
    ∧ ∃ e, r.segments.find? (fun s => decide (s.segmentID = id)) = some e
        ∧ List.Perm (e :: (r.removeSegment id).2.segments) r.segments := by
  rcases rangeSegments_cases r.segments id with ⟨hn, _⟩ | ⟨pre, e, post, hs, hpre, he, hr⟩
  · simp [ReplicaImpl.hasSegment, hn] at hhas
  · have hfind := rangeSegments_eq_find r.segments id
    rw [hr] at hfind
    have hperm := swapRemove_perm pre post e
    have hcount := idCount_swapRemove id pre post e
    rw [if_pos he] at hcount
    obtain ⟨last, hlast, hset⟩ := swapRemove_eq_set_dropLast pre post e
    rw [r.removeSegment_of_range id pre post e hs hr]
    refine ⟨rfl, rfl, ⟨last, by rw [hs]; exact hlast, ?_⟩, ?_, ?_, e, hfind.symm, ?_⟩
    · rw [hs, findIdx_split pre post e id hpre he]
      exact hset
    · rw [hs, ← hperm.length_eq]
      rfl
    · rw [hs]; exact hcount
    · rw [hs]; exact hperm

/-- C15 at a concrete input: segments 1, 2, 3, segment 1 removed, which leaves 3, 2. -/
theorem C15_remove_segment_swap_witness :
    (((newReplica.addSegment 1 1 1 "a").2.addSegment 2 1 1 "b").2.addSegment 3 1 1 "c").2.hasSegment
        1 = true
    ∧ (((((newReplica.addSegment 1 1 1 "a").2.addSegment 2 1 1 "b").2.addSegment 3 1 1
          "c").2.removeSegment 1).1 = none
      ∧ ((((newReplica.addSegment 1 1 1 "a").2.addSegment 2 1 1 "b").2.addSegment 3 1 1
          "c").2.removeSegment 1).2.collections
          = (((newReplica.addSegment 1 1 1 "a").2.addSegment 2 1 1 "b").2.addSegment 3 1 1
              "c").2.collections
      ∧ (∃ last, (((newReplica.addSegment 1 1 1 "a").2.addSegment 2 1 1 "b").2.addSegment 3 1 1
            "c").2.segments.getLast? = some last
          ∧ ((((newReplica.addSegment 1 1 1 "a").2.addSegment 2 1 1 "b").2.addSegment 3 1 1
              "c").2.removeSegment 1).2.segments
            = ((((newReplica.addSegment 1 1 1 "a").2.addSegment 2 1 1 "b").2.addSegment 3 1 1
                "c").2.segments.set
                ((((newReplica.addSegment 1 1 1 "a").2.addSegment 2 1 1 "b").2.addSegment 3 1 1
                  "c").2.segments.findIdx (fun s => decide (s.segmentID = 1)))
                last).dropLast)
      ∧ ((((newReplica.addSegment 1 1 1 "a").2.addSegment 2 1 1 "b").2.addSegment 3 1 1
            "c").2.removeSegment 1).2.segments.length + 1
          = (((newReplica.addSegment 1 1 1 "a").2.addSegment 2 1 1 "b").2.addSegment 3 1 1
              "c").2.segments.length
      ∧ idCount 1 ((((newReplica.addSegment 1 1 1 "a").2.addSegment 2 1 1 "b").2.addSegment 3 1 1
            "c").2.removeSegment 1).2.segments + 1
          = idCount 1 (((newReplica.addSegment 1 1 1 "a").2.addSegment 2 1 1 "b").2.addSegment
              3 1 1 "c").2.segments
      ∧ ∃ e, (((newReplica.addSegment 1 1 1 "a").2.addSegment 2 1 1 "b").2.addSegment 3 1 1
            "c").2.segments.find? (fun s => decide (s.segmentID = 1)) = some e
          ∧ List.Perm (e :: ((((newReplica.addSegment 1 1 1 "a").2.addSegment 2 1 1
                "b").2.addSegment 3 1 1 "c").2.removeSegment 1).2.segments)
              (((newReplica.addSegment 1 1 1 "a").2.addSegment 2 1 1 "b").2.addSegment 3 1 1
                "c").2.segments) :=
  ⟨by decide, C15_remove_segment_swap _ 1 (by decide)⟩

/-! ## Frame conditions of the segment operations -/

/-- C16: when `hasSegment(id)` holds, `getSegmentStatisticsUpdates(id)` leaves the
collection map and every slot of the segment list as they were, except that the first
segment with the ID has `isNew = false` afterwards; all its other fields keep their
values, and when its flag was already false the whole state is unchanged. -/
theorem C16_statistics_read_frame (r : ReplicaImpl) (id : Int)
    (hhas : r.hasSegment id = true) :
    ∃ pre e post e', r.segments = pre ++ e :: post ∧ (∀ s ∈ pre, s.segmentID ≠ id)
      ∧ e.segmentID = id
      ∧ (r.getSegmentStatisticsUpdates id).2
          = { segments := pre ++ e' :: post, collections := r.collections }
      ∧ e'.isNew = false
      ∧ e'.segmentID = e.segmentID ∧ e'.collectionID = e.collectionID
      ∧ e'.partitionID = e.partitionID ∧ e'.numRows = e.numRows
      ∧ e'.memorySize = e.memorySize ∧ e'.createTime = e.createTime
      ∧ e'.endTime = e.endTime ∧ e'.startPosition = e.startPosition
      ∧ e'.endPosition = e.endPosition
      ∧ (e.isNew = false → (r.getSegmentStatisticsUpdates id).2 = r) := by
  rcases rangeSegments_cases r.segments id with ⟨hn, _⟩ | ⟨pre, e, post, hs, hpre, he, hr⟩
  · simp [ReplicaImpl.hasSegment, hn] at hhas
  · rw [r.getSegmentStatisticsUpdates_of_range id pre post e hs hr]
    refine ⟨pre, e, post, { e with isNew := false }, hs, hpre, he, rfl, rfl, rfl, rfl, rfl,
      rfl, rfl, rfl, rfl, rfl, rfl, ?_⟩
    intro hold
    have hsame : ({ e with isNew := false } : Segment) = e := by
      cases e; simp_all
    simp only [hsame, ← hs]

/-- C16 at a concrete input: the first statistics read of segment 2 of the sample. -/
theorem C16_statistics_read_frame_witness :
    sampleReplica.hasSegment 2 = true
    ∧ ∃ pre e post e', sampleReplica.segments = pre ++ e :: post
      ∧ (∀ s ∈ pre, s.segmentID ≠ 2) ∧ e.segmentID = 2
      ∧ (sampleReplica.getSegmentStatisticsUpdates 2).2
          = { segments := pre ++ e' :: post, collections := sampleReplica.collections }
      ∧ e'.isNew = false
      ∧ e'.segmentID = e.segmentID ∧ e'.collectionID = e.collectionID
      ∧ e'.partitionID = e.partitionID ∧ e'.numRows = e.numRows
      ∧ e'.memorySize = e.memorySize ∧ e'.createTime = e.createTime
      ∧ e'.endTime = e.endTime ∧ e'.startPosition = e.startPosition
      ∧ e'.endPosition = e.endPosition
      ∧ (e.isNew = false → (sampleReplica.getSegmentStatisticsUpdates 2).2 = sampleReplica) :=
  ⟨by decide, C16_statistics_read_frame sampleReplica 2 (by decide)⟩

/-- C17: when `hasSegment(id)` holds, `updateStatistics(id, d)` leaves the collection map
and every slot of the segment list as they were, except for `numRows` and `memorySize`
of the first segment with the ID; that segment keeps its `isNew` flag, start position,
segment, collection and partition IDs (and its times and end position). -/
theorem C17_update_statistics_frame (r : ReplicaImpl) (id d : Int)
    (hhas : r.hasSegment id = true) :
    ∃ pre e post e', r.segments = pre ++ e :: post ∧ (∀ s ∈ pre, s.segmentID ≠ id)
      ∧ e.segmentID = id
      ∧ (r.updateStatistics id d).2
          = { segments := pre ++ e' :: post, collections := r.collections }
      ∧ e'.isNew = e.isNew ∧ e'.startPosition = e.startPosition
      ∧ e'.segmentID = e.segmentID ∧ e'.collectionID = e.collectionID
      ∧ e'.partitionID = e.partitionID ∧ e'.createTime = e.createTime
      ∧ e'.endTime = e.endTime ∧ e'.endPosition = e.endPosition := by
  rcases rangeSegments_cases r.segments id with ⟨hn, _⟩ | ⟨pre, e, post, hs, hpre, he, hr⟩
  · simp [ReplicaImpl.hasSegment, hn] at hhas
  · rw [r.updateStatistics_of_range id d pre post e hs hr]
    exact ⟨pre, e, post, { e with memorySize := 0, numRows := wrapInt64 (e.numRows + d) },
      hs, hpre, he, rfl, rfl, rfl, rfl, rfl, rfl, rfl, rfl, rfl⟩

/-- C17 at a concrete input: 5 rows reported for segment 2 of the sample. -/
theorem C17_update_statistics_frame_witness :
    sampleReplica.hasSegment 2 = true
    ∧ ∃ pre e post e', sampleReplica.segments = pre ++ e :: post
      ∧ (∀ s ∈ pre, s.segmentID ≠ 2) ∧ e.segmentID = 2
      ∧ (sampleReplica.updateStatistics 2 5).2
          = { segments := pre ++ e' :: post, collections := sampleReplica.collections }
      ∧ e'.isNew = e.isNew ∧ e'.startPosition = e.startPosition
      ∧ e'.segmentID = e.segmentID ∧ e'.collectionID = e.collectionID
      ∧ e'.partitionID = e.partitionID ∧ e'.createTime = e.createTime
      ∧ e'.endTime = e.endTime ∧ e'.endPosition = e.endPosition :=
  ⟨by decide, C17_update_statistics_frame sampleReplica 2 5 (by decide)⟩

/-! ## Adding a segment without checks -/

/-- C18: for every state and all arguments (a segment ID already present and an
unregistered collection ID included), `addSegment` returns no error, leaves the
collection map alone and appends one segment with the given ID at the end of the list,
the existing slots staying as they are; when the ID was already present,
`getSegmentByID`, `updateStatistics` and `getSegmentStatisticsUpdates` by that ID act on
the earlier segment exactly as before the call, the appended one riding along untouched
at the end. -/
theorem C18_add_segment_unchecked (r : ReplicaImpl) (id c p : Int) (ch : String) :
    (r.addSegment id c p ch).1 = none
    ∧ (r.addSegment id c p ch).2.collections = r.collections
    ∧ ∃ seg, (r.addSegment id c p ch).2.segments = r.segments ++ [seg]
      ∧ seg.segmentID = id
      ∧ (r.hasSegment id = true →
          (r.addSegment id c p ch).2.getSegmentByID id = r.getSegmentByID id
          ∧ (∀ n, ((r.addSegment id c p ch).2.updateStatistics id n).1 = none
              ∧ ((r.addSegment id c p ch).2.updateStatistics id n).2.segments
                = (r.updateStatistics id n).2.segments ++ [seg])
          ∧ ((r.addSegment id c p ch).2.getSegmentStatisticsUpdates id).1
              = (r.getSegmentStatisticsUpdates id).1
          ∧ ((r.addSegment id c p ch).2.getSegmentStatisticsUpdates id).2.segments
              = (r.getSegmentStatisticsUpdates id).2.segments ++ [seg]) := by
  refine ⟨rfl, rfl, _, rfl, rfl, ?_⟩
  intro hhas
  rcases rangeSegments_cases r.segments id with ⟨hn, _⟩ | ⟨pre, e, post, hs, hpre, he, hr⟩
  · simp [ReplicaImpl.hasSegment, hn] at hhas
  · generalize hseg : ({
        segmentID := id, collectionID := c, partitionID := p, numRows := 0,
        memorySize := 0, isNew := true, createTime := 0, endTime := 0,
        startPosition := some { ChannelName := ch },
        endPosition := some { ChannelName := "" } } : Segment) = seg
    have hadd : (r.addSegment id c p ch).2.segments = pre ++ e :: (post ++ [seg]) := by
      simp only [ReplicaImpl.addSegment, hs, hseg, List.append_assoc, List.cons_append]
    have hr' : rangeSegments (r.addSegment id c p ch).2.segments id = some (pre.length, e) := by
      rw [hadd]; exact rangeSegments_of_split pre _ e id hpre he
    refine ⟨?_, ?_, ?_, ?_⟩
    · simp only [ReplicaImpl.getSegmentByID, hr, hr']
    · intro n
      rw [ReplicaImpl.updateStatistics_of_range _ id n pre (post ++ [seg]) e hadd hr',
        r.updateStatistics_of_range id n pre post e hs hr]
      simp [ReplicaImpl.addSegment, hseg]
    · rw [ReplicaImpl.getSegmentStatisticsUpdates_of_range _ id pre (post ++ [seg]) e hadd hr',
        r.getSegmentStatisticsUpdates_of_range id pre post e hs hr]
    · rw [ReplicaImpl.getSegmentStatisticsUpdates_of_range _ id pre (post ++ [seg]) e hadd hr',
        r.getSegmentStatisticsUpdates_of_range id pre post e hs hr]
      simp [ReplicaImpl.addSegment, hseg]

/-- C18 at a concrete input: segment 1 added a second time to the sample, for a
collection that is not registered. -/
theorem C18_add_segment_unchecked_witness :
    sampleReplica.hasSegment 1 = true
    ∧ ((sampleReplica.addSegment 1 77 7 "dm9").1 = none
      ∧ (sampleReplica.addSegment 1 77 7 "dm9").2.collections = sampleReplica.collections
      ∧ ∃ seg, (sampleReplica.addSegment 1 77 7 "dm9").2.segments
          = sampleReplica.segments ++ [seg]
        ∧ seg.segmentID = 1
        ∧ (sampleReplica.hasSegment 1 = true →
            (sampleReplica.addSegment 1 77 7 "dm9").2.getSegmentByID 1
              = sampleReplica.getSegmentByID 1
            ∧ (∀ n, ((sampleReplica.addSegment 1 77 7 "dm9").2.updateStatistics 1 n).1 = none
                ∧ ((sampleReplica.addSegment 1 77 7 "dm9").2.updateStatistics 1 n).2.segments
                  = (sampleReplica.updateStatistics 1 n).2.segments ++ [seg])
            ∧ ((sampleReplica.addSegment 1 77 7 "dm9").2.getSegmentStatisticsUpdates 1).1
                = (sampleReplica.getSegmentStatisticsUpdates 1).1
            ∧ ((sampleReplica.addSegment 1 77 7 "dm9").2.getSegmentStatisticsUpdates
                  1).2.segments
                = (sampleReplica.getSegmentStatisticsUpdates 1).2.segments ++ [seg])) :=
  ⟨by decide, C18_add_segment_unchecked sampleReplica 1 77 7 "dm9"⟩

/-! ## Invariants of the reachable states -/

theorem idCount_exec_le_of_not_adds (nc : Int → CollectionSchema → Except GoError Collection)
    (id : Int) (r : ReplicaImpl) (call : ReplicaCall) (hcall : call.addsSegment id = false) :
    idCount id (call.exec nc r).2.segments ≤ idCount id r.segments := by
  rcases addsOrRemoves_cases id call hcall with hkeep | rfl
  · exact idCount_exec_le nc id r call hkeep
  · rcases rangeSegments_cases r.segments id with ⟨hn, _⟩ | ⟨pre, e, post, hs, _, _, hr⟩
    · simp only [ReplicaCall.exec, ReplicaImpl.removeSegment, hn]; exact le_refl _
    · simp only [ReplicaCall.exec, r.removeSegment_of_range id pre post e hs hr]
      rw [hs, ← idCount_swapRemove id pre post e]
      exact Nat.le_add_right _ _

theorem idCount_exec_guarded (nc : Int → CollectionSchema → Except GoError Collection)
    (id : Int) (r : ReplicaImpl) (call : ReplicaCall) (hguard : call.guarded r = true)
    (hone : idCount id r.segments ≤ 1) : idCount id (call.exec nc r).2.segments ≤ 1 := by
  cases hadds : call.addsSegment id with
  | false => exact le_trans (idCount_exec_le_of_not_adds nc id r call hadds) hone
  | true =>
    cases call with
    | addSegment i c p ch =>
      have hi : i = id := by simpa [ReplicaCall.addsSegment] using hadds
      subst hi
      have hfresh : r.hasSegment i = false := by simpa [ReplicaCall.guarded] using hguard
      have hzero := (idCount_eq_zero_iff i r.segments).mpr
        ((r.hasSegment_eq_false_iff i).mp hfresh)
      simp only [ReplicaCall.exec, ReplicaImpl.addSegment, idCount_append, hzero]
      simp [idCount]
    | _ => simp [ReplicaCall.addsSegment] at hadds

theorem nodup_exec_guarded (nc : Int → CollectionSchema → Except GoError Collection)
    (r : ReplicaImpl) (call : ReplicaCall) (hguard : call.guarded r = true)
    (hdistinct : (r.segments.map (fun s => s.segmentID)).Nodup) :
    ((call.exec nc r).2.segments.map (fun s => s.segmentID)).Nodup :=
  List.nodup_iff_count_le_one.mpr fun id =>
    idCount_exec_guarded nc id r call hguard (idCount_le_one_of_nodup r.segments hdistinct id)

theorem nodup_runCalls_guarded (nc : Int → CollectionSchema → Except GoError Collection)
    (calls : List ReplicaCall) (r : ReplicaImpl) (hguard : callsGuarded nc r calls = true)
    (hdistinct : (r.segments.map (fun s => s.segmentID)).Nodup) :
    ((runCalls nc r calls).segments.map (fun s => s.segmentID)).Nodup := by
  induction calls generalizing r with
  | nil => exact hdistinct
  | cons call rest ih =>
    simp only [callsGuarded, Bool.and_eq_true] at hguard
    simp only [runCalls, List.foldl_cons]
    exact ih _ hguard.2 (nodup_exec_guarded nc r call hguard.1 hdistinct)

/-- C19: in every state reached from `newReplica()` by a sequence of calls in which each
`addSegment(id, ..)` is made in a state where `hasSegment(id)` is false, the segment IDs
of the list are pairwise distinct; and from any state with pairwise distinct segment
IDs, `removeSegment`, `updateStatistics` and `getSegmentStatisticsUpdates` (any
arguments) lead to a state with pairwise distinct segment IDs. -/
theorem C19_segment_ids_distinct (nc : Int → CollectionSchema → Except GoError Collection) :
    (∀ calls : List ReplicaCall, callsGuarded nc newReplica calls = true →
      ((runCalls nc newReplica calls).segments.map (fun s => s.segmentID)).Nodup)
    ∧ ∀ r : ReplicaImpl, (r.segments.map (fun s => s.segmentID)).Nodup →
        ∀ id n : Int,
          ((r.removeSegment id).2.segments.map (fun s => s.segmentID)).Nodup
          ∧ ((r.updateStatistics id n).2.segments.map (fun s => s.segmentID)).Nodup
          ∧ ((r.getSegmentStatisticsUpdates id).2.segments.map (fun s => s.segmentID)).Nodup := by
  constructor
  · intro calls hguard
    exact nodup_runCalls_guarded nc calls newReplica hguard List.nodup_nil
  · intro r hdistinct id n
    exact ⟨nodup_exec_guarded nc r (.removeSegment id) rfl hdistinct,
      nodup_exec_guarded nc r (.updateStatistics id n) rfl hdistinct,
      nodup_exec_guarded nc r (.getSegmentStatisticsUpdates id) rfl hdistinct⟩

/-- C19 at a concrete input: a run that adds, reads, removes and adds segment 1 again. -/
theorem C19_segment_ids_distinct_witness :
    callsGuarded newCollectionOk newReplica
        [ReplicaCall.addSegment 1 10 100 "dm0", ReplicaCall.addSegment 2 10 100 "dm1",
          ReplicaCall.updateStatistics 1 5, ReplicaCall.getSegmentStatisticsUpdates 1,
          ReplicaCall.removeSegment 1, ReplicaCall.addSegment 1 10 100 "dm0"] = true
    ∧ ((runCalls newCollectionOk newReplica
        [ReplicaCall.addSegment 1 10 100 "dm0", ReplicaCall.addSegment 2 10 100 "dm1",
          ReplicaCall.updateStatistics 1 5, ReplicaCall.getSegmentStatisticsUpdates 1,
          ReplicaCall.removeSegment 1,
          ReplicaCall.addSegment 1 10 100 "dm0"]).segments.map (fun s => s.segmentID)).Nodup
    ∧ (sampleReplica.segments.map (fun s => s.segmentID)).Nodup
    ∧ ((sampleReplica.removeSegment 1).2.segments.map (fun s => s.segmentID)).Nodup
    ∧ ((sampleReplica.updateStatistics 1 5).2.segments.map (fun s => s.segmentID)).Nodup
    ∧ ((sampleReplica.getSegmentStatisticsUpdates 1).2.segments.map
        (fun s => s.segmentID)).Nodup :=
  ⟨by decide, (C19_segment_ids_distinct newCollectionOk).1 _ (by decide), by decide,
    (C19_segment_ids_distinct newCollectionOk).2 sampleReplica (by decide) 1 5⟩

theorem forall_segments_exec (nc : Int → CollectionSchema → Except GoError Collection)
    (P : Segment → Prop) (r : ReplicaImpl) (call : ReplicaCall)
    (hadd : ∀ (i c p : Int) (ch : String), ∀ s ∈ (r.addSegment i c p ch).2.segments,
      s ∉ r.segments → P s)
    (hstat : ∀ s : Segment, ∀ n : Int, P s → P { s with memorySize := 0, numRows := n })
    (hread : ∀ s : Segment, P s → P { s with isNew := false })
    (h : ∀ s ∈ r.segments, P s) : ∀ s ∈ (call.exec nc r).2.segments, P s := by
  have hreplace : ∀ (pre post : List Segment) (e x : Segment), r.segments = pre ++ e :: post →
      (P e → P x) → ∀ s ∈ pre ++ x :: post, P s := by
    intro pre post e x hs hx s hmem
    rw [hs] at h
    rcases List.mem_append.mp hmem with hm | hm
    · exact h s (List.mem_append_left _ hm)
    · rcases List.mem_cons.mp hm with rfl | hm
      · exact hx (h e (by simp))
      · exact h s (by simp [hm])
  cases call with
  | getCollectionNum => exact h
  | addCollection c schema =>
    simp only [ReplicaCall.exec, ReplicaImpl.addCollection]
    cases r.collections.lookup c with
    | some _ => exact h
    | none => cases nc c schema <;> exact h
  | removeCollection c => exact h
  | getCollectionByID c => exact h
  | hasCollection c => exact h
  | hasSegment i => exact h
  | getSegmentByID i => exact h
  | addSegment i c p ch =>
    intro s hs
    by_cases hold : s ∈ r.segments
    · exact h s hold
    · exact hadd i c p ch s hs hold
  | removeSegment i =>
    rcases rangeSegments_cases r.segments i with ⟨hn, _⟩ | ⟨pre, e, post, hs, _, _, hr⟩
    · simp only [ReplicaCall.exec, ReplicaImpl.removeSegment, hn]; exact h
    · simp only [ReplicaCall.exec, r.removeSegment_of_range i pre post e hs hr]
      intro s hmem
      rw [hs] at h
      exact h s ((swapRemove_perm pre post e).mem_iff.mp (List.mem_cons_of_mem _ hmem))
  | updateStatistics i n =>
    rcases rangeSegments_cases r.segments i with ⟨hn, _⟩ | ⟨pre, e, post, hs, _, _, hr⟩
    · simp only [ReplicaCall.exec, ReplicaImpl.updateStatistics, hn]; exact h
    · simp only [ReplicaCall.exec, r.updateStatistics_of_range i n pre post e hs hr]
      exact hreplace pre post e _ hs (hstat e _)
  | getSegmentStatisticsUpdates i =>
    rcases rangeSegments_cases r.segments i with ⟨hn, _⟩ | ⟨pre, e, post, hs, _, _, hr⟩
    · simp only [ReplicaCall.exec, ReplicaImpl.getSegmentStatisticsUpdates, hn]; exact h
    · simp only [ReplicaCall.exec, r.getSegmentStatisticsUpdates_of_range i pre post e hs hr]
      exact hreplace pre post e _ hs (hread e)

theorem memorySize_zero_runCalls (nc : Int → CollectionSchema → Except GoError Collection)
    (calls : List ReplicaCall) (r : ReplicaImpl) (h : ∀ s ∈ r.segments, s.memorySize = 0) :
    ∀ s ∈ (runCalls nc r calls).segments, s.memorySize = 0 := by
  induction calls generalizing r with
  | nil => exact h
  | cons call rest ih =>
    simp only [runCalls, List.foldl_cons]
    refine ih _ (forall_segments_exec nc (fun s => s.memorySize = 0) r call ?_
      (fun _ _ _ => rfl) (fun _ hs => hs) h)
    intro i c p ch s hs hnew
    simp only [ReplicaImpl.addSegment, List.mem_append, List.mem_singleton] at hs
    rcases hs with hs | rfl
    · exact absurd hs hnew
    · rfl

/-- C20: in every state reached from `newReplica()` by any sequence of calls, every
segment of the list has `memorySize = 0`, and every report that
`getSegmentStatisticsUpdates` returns in such a state has `MemorySize = 0`. -/
theorem C20_memory_size_zero (nc : Int → CollectionSchema → Except GoError Collection)
    (calls : List ReplicaCall) :
    (∀ s ∈ (runCalls nc newReplica calls).segments, s.memorySize = 0)
    ∧ ∀ (id : Int) (u : SegmentStatisticsUpdates),
        ((runCalls nc newReplica calls).getSegmentStatisticsUpdates id).1 = .ok u →
        u.MemorySize = 0 := by
  have hall := memorySize_zero_runCalls nc calls newReplica (by simp [newReplica])
  refine ⟨hall, ?_⟩
  intro id u hu
  rcases rangeSegments_cases (runCalls nc newReplica calls).segments id
    with ⟨hn, _⟩ | ⟨pre, e, post, hs, _, _, hr⟩
  · simp [ReplicaImpl.getSegmentStatisticsUpdates, hn] at hu
  · rw [ReplicaImpl.getSegmentStatisticsUpdates_of_range _ id pre post e hs hr] at hu
    simp only [Except.ok.injEq] at hu
    rw [← hu]
    exact hall e (by simp [hs])

/-- C20 at a concrete input: the report for segment 1 after two updates and a read. -/
theorem C20_memory_size_zero_witness :
    ((runCalls newCollectionOk newReplica
        [ReplicaCall.addSegment 1 10 100 "dm0", ReplicaCall.updateStatistics 1 5,
          ReplicaCall.getSegmentStatisticsUpdates 1,
          ReplicaCall.updateStatistics 1 3]).getSegmentStatisticsUpdates 1).1
      = .ok { SegmentID := 1, MemorySize := 0, NumRows := 8, IsNewSegment := false,
              StartPosition := none }
    ∧ ({ SegmentID := 1, MemorySize := 0, NumRows := 8, IsNewSegment := false,
         StartPosition := none } : SegmentStatisticsUpdates).MemorySize = 0 :=
  ⟨rfl, (C20_memory_size_zero newCollectionOk
    [ReplicaCall.addSegment 1 10 100 "dm0", ReplicaCall.updateStatistics 1 5,
      ReplicaCall.getSegmentStatisticsUpdates 1, ReplicaCall.updateStatistics 1 3]).2 1 _
    rfl⟩

end datanode

/-! ## The timestamp barrier -/

namespace master

theorem validate_accepts (s : Catalog) (ts : Nat) (h : s.watermark < ts) :
    validate s ts = (true, { s with watermark := ts }) := by
  simp [validate, h]

theorem validate_rejects (s : Catalog) (ts : Nat) (h : ¬ s.watermark < ts) :
    validate s ts = (false, s) := by
  simp [validate, h]

/-- What a request does once the barrier let it through: never the stale error, and the
watermark stays where the barrier put it. -/
theorem body_keeps_barrier (op : CatalogOp) (s : Catalog) (h : s.watermark < op.ts) :
    isRejected (op.exec s).1 = false ∧ (op.exec s).2.watermark = op.ts := by
  cases op with
  | createCollection ts name schema =>
    simp only [CatalogOp.ts] at h
    simp only [CatalogOp.exec, CatalogOp.ts, createCollection, gated, validate_accepts s ts h]
    split <;> exact ⟨rfl, rfl⟩
  | createPartition ts c tag =>
    simp only [CatalogOp.ts] at h
    simp only [CatalogOp.exec, CatalogOp.ts, createPartition, gated, validate_accepts s ts h]
    split
    · exact ⟨rfl, rfl⟩
    · split <;> exact ⟨rfl, rfl⟩
  | dropPartition ts c tag =>
    simp only [CatalogOp.ts] at h
    simp only [CatalogOp.exec, CatalogOp.ts, dropPartition, gated, validate_accepts s ts h]
    split
    · exact ⟨rfl, rfl⟩
    · split
      · exact ⟨rfl, rfl⟩
      · split <;> exact ⟨rfl, rfl⟩
  | hasPartition ts c tag =>
    simp only [CatalogOp.ts] at h
    simp only [CatalogOp.exec, CatalogOp.ts, hasPartition, gated, validate_accepts s ts h]
    split <;> exact ⟨rfl, rfl⟩
  | showPartitions ts c =>
    simp only [CatalogOp.ts] at h
    simp only [CatalogOp.exec, CatalogOp.ts, showPartitions, gated, validate_accepts s ts h]
    split <;> exact ⟨rfl, rfl⟩
  | describePartition ts c tag =>
    simp only [CatalogOp.ts] at h
    simp only [CatalogOp.exec, CatalogOp.ts, describePartition, gated, validate_accepts s ts h]
    split
    · exact ⟨rfl, rfl⟩
    · split <;> exact ⟨rfl, rfl⟩

theorem exec_rejected (op : CatalogOp) (s : Catalog) (h : ¬ s.watermark < op.ts) :
    (op.exec s).1 = .error .StaleOrDuplicateTimestamp ∧ (op.exec s).2 = s := by
  cases op <;> simp only [CatalogOp.ts] at h <;>
    simp only [CatalogOp.exec, createCollection, createPartition, dropPartition, hasPartition,
      showPartitions, describePartition, gated, validate_rejects s _ h, and_self]


theorem foldr_max_start (a b : Nat) (l : List Nat) (h : a ≤ b) :
    l.foldr max b = max b (l.foldr max a) := by
  induction l with
  | nil => simp [h]
  | cons x rest ih => simp only [List.foldr_cons, ih]; omega

theorem runOps_watermark (ops : List CatalogOp) (s : Catalog) :
    (runOps s ops).watermark = (acceptedTimestamps s ops).foldr max s.watermark := by
  induction ops generalizing s with
  | nil => rfl
  | cons op rest ih =>
    simp only [runOps, List.foldl_cons, acceptedTimestamps]
    by_cases h : s.watermark < op.ts
    · obtain ⟨hacc, hw⟩ := body_keeps_barrier op s h
      have := ih (op.exec s).2
      simp only [runOps] at this
      rw [this, hacc, hw]
      simp only [Bool.false_eq_true, if_false, List.foldr_cons]
      rw [foldr_max_start s.watermark op.ts _ (Nat.le_of_lt h)]
    · obtain ⟨hres, hst⟩ := exec_rejected op s h
      have := ih s
      simp only [runOps] at this
      rw [hst, this, hres]
      simp [isRejected]

/-- C12: along any sequence of timestamped catalog requests served from a state `s`, the
next request is accepted by the barrier (its response is not the stale-timestamp error)
exactly when its timestamp is strictly greater than the maximum of the timestamps
accepted so far and the watermark `s` started with (0 for a new catalog); when it is
accepted its timestamp is the watermark afterwards, when it is rejected the response is
`StaleOrDuplicateTimestamp` and the whole state, watermark and catalog, is unchanged;
the watermark is always that maximum. -/
theorem C12_barrier_monotonicity (s : Catalog) (ops : List CatalogOp) (op : CatalogOp) :
    (isRejected (op.exec (runOps s ops)).1 = false
      ↔ (acceptedTimestamps s ops).foldr max s.watermark < op.ts)
    ∧ (isRejected (op.exec (runOps s ops)).1 = false →
        (op.exec (runOps s ops)).2.watermark = op.ts)
    ∧ (isRejected (op.exec (runOps s ops)).1 = true →
        (op.exec (runOps s ops)).1 = .error .StaleOrDuplicateTimestamp
        ∧ (op.exec (runOps s ops)).2 = runOps s ops)
    ∧ (runOps s ops).watermark = (acceptedTimestamps s ops).foldr max s.watermark := by
  have hw := runOps_watermark ops s
  by_cases h : (runOps s ops).watermark < op.ts
  · obtain ⟨hacc, hts⟩ := body_keeps_barrier op _ h
    rw [hw] at h
    simp [hacc, hts, h, hw]
  · obtain ⟨hres, hst⟩ := exec_rejected op _ h
    rw [hw] at h
    simp [hres, hst, h, isRejected, hw]


/-- C12 on the requests of `TestMaster_Partition`: after timestamps 1 and 2 were accepted,
`createPartition` at 1 is rejected without a change and at 3 it is accepted; after 4 was
accepted, `showPartitions` at 3 is rejected. -/
theorem C12_barrier_monotonicity_witness :
    (isRejected ((CatalogOp.createPartition 3 "col1" "partition2").exec
        (runOps newCatalog (partitionTest.take 2))).1 = false
      ∧ ((CatalogOp.createPartition 3 "col1" "partition2").exec
        (runOps newCatalog (partitionTest.take 2))).2.watermark = 3)
    ∧ (isRejected ((CatalogOp.createPartition 1 "col1" "partition1").exec
        (runOps newCatalog (partitionTest.take 2))).1 = true
      ∧ ((CatalogOp.createPartition 1 "col1" "partition1").exec
          (runOps newCatalog (partitionTest.take 2))).1 = .error .StaleOrDuplicateTimestamp
      ∧ ((CatalogOp.createPartition 1 "col1" "partition1").exec
          (runOps newCatalog (partitionTest.take 2))).2
        = runOps newCatalog (partitionTest.take 2))
    ∧ (isRejected ((CatalogOp.showPartitions 3 "col1").exec
        (runOps newCatalog (partitionTest.take 5))).1 = true
      ∧ (acceptedTimestamps newCatalog (partitionTest.take 5)).foldr max newCatalog.watermark
        = 4) :=
  ⟨⟨by decide, (C12_barrier_monotonicity newCatalog (partitionTest.take 2)
      (CatalogOp.createPartition 3 "col1" "partition2")).2.1 (by decide)⟩,
    ⟨by decide, (C12_barrier_monotonicity newCatalog (partitionTest.take 2)
      (CatalogOp.createPartition 1 "col1" "partition1")).2.2.1 (by decide)⟩,
    ⟨by decide, by decide⟩⟩

/-- The model serves the requests of `TestMaster_Partition` with the responses the test
asserts: success or the stale-timestamp error, and the payloads it checks. -/
theorem partitionTest_outcomes :
    outcomes newCatalog partitionTest
      = [ .ok .done, .ok .done, .error .StaleOrDuplicateTimestamp, .ok .done,
          .ok (.tags ["_default", "partition1", "partition2"]),
          .error .StaleOrDuplicateTimestamp,
          .ok (.present true), .error .StaleOrDuplicateTimestamp, .ok (.present false),
          .ok .done, .error .StaleOrDuplicateTimestamp, .ok (.present false),
          .ok (.partition "col1" "partition1" 2), .error .StaleOrDuplicateTimestamp ] := by
  rfl

theorem findCollection_append_new (s : Catalog) (name : String) (x : CollectionMeta)
    (hx : x.Name = name) (habs : findCollection s name = none) :
    findCollection { s with collections := s.collections ++ [x] } name = some x := by
  simp only [findCollection] at habs ⊢
  rw [List.find?_append, habs]
  simp [hx]

theorem findCollection_append_old (s : Catalog) (name : String) (x meta : CollectionMeta)
    (hold : findCollection s name = some meta) :
    findCollection { s with collections := s.collections ++ [x] } name = some meta := by
  simp only [findCollection] at hold ⊢
  rw [List.find?_append, hold]
  rfl

theorem find_map_same (l : List CollectionMeta) (name : String)
    (f : CollectionMeta → CollectionMeta) (hf : ∀ c, (f c).Name = c.Name) :
    (l.map (fun c => if c.Name = name then f c else c)).find? (fun c => decide (c.Name = name))
      = (l.find? (fun c => decide (c.Name = name))).map f := by
  induction l with
  | nil => rfl
  | cons a rest ih =>
    by_cases ha : a.Name = name
    · simp [ha, hf]
    · simp [ha, ih]

theorem find_map_other (l : List CollectionMeta) (name other : String)
    (f : CollectionMeta → CollectionMeta) (hf : ∀ c, (f c).Name = c.Name)
    (hne : other ≠ name) :
    (l.map (fun c => if c.Name = name then f c else c)).find? (fun c => decide (c.Name = other))
      = l.find? (fun c => decide (c.Name = other)) := by
  induction l with
  | nil => rfl
  | cons a rest ih =>
    rw [List.map_cons]
    by_cases ha : a.Name = name
    · have h1 : (f a).Name ≠ other := by rw [hf, ha]; exact Ne.symm hne
      have h2 : a.Name ≠ other := by rw [ha]; exact Ne.symm hne
      rw [if_pos ha, List.find?_cons_of_neg _ (by simpa using h1),
        List.find?_cons_of_neg _ (by simpa using h2), ih]
    · rw [if_neg ha]
      by_cases hao : a.Name = other
      · rw [List.find?_cons_of_pos _ (by simpa using hao),
          List.find?_cons_of_pos _ (by simpa using hao)]
      · rw [List.find?_cons_of_neg _ (by simpa using hao),
          List.find?_cons_of_neg _ (by simpa using hao), ih]

theorem getCollectionByName_eq (s q : Catalog) (name : String)
    (h : q.collections = s.collections) :
    getCollectionByName q name = getCollectionByName s name := by
  simp only [getCollectionByName, findCollection, h]

theorem createCollection_eq (s : Catalog) (ts : Nat) (name : String)
    (schema : datanode.CollectionSchema) :
    createCollection s ts name schema
      = if s.watermark < ts then
          match findCollection s name with
          | some _ => (.error .AlreadyExists, { s with watermark := ts })
          | none =>
            (.ok .done, { watermark := ts, collections := s.collections ++
              [{ Name := name, Schema := schema, CreateTime := ts,
                 Partitions := [{ Tag := defaultPartitionTag, CreateTime := ts }] }] })
        else (.error .StaleOrDuplicateTimestamp, s) := by
  by_cases h : s.watermark < ts
  · simp only [createCollection, gated, validate_accepts s ts h, if_pos h]
    rfl
  · simp only [createCollection, gated, validate_rejects s ts h, if_neg h]

theorem createPartition_eq (s : Catalog) (ts : Nat) (name tag : String) :
    createPartition s ts name tag
      = if s.watermark < ts then
          match findCollection s name with
          | none => (.error .NotFound, { s with watermark := ts })
          | some meta =>
            if tag ∈ meta.PartitionTags then (.error .AlreadyExists, { s with watermark := ts })
            else (.ok .done, { watermark := ts, collections := s.collections.map (fun c =>
              if c.Name = name then
                { c with Partitions := c.Partitions ++ [{ Tag := tag, CreateTime := ts }] }
              else c) })
        else (.error .StaleOrDuplicateTimestamp, s) := by
  by_cases h : s.watermark < ts
  · simp only [createPartition, gated, validate_accepts s ts h, if_pos h]
    rfl
  · simp only [createPartition, gated, validate_rejects s ts h, if_neg h]

theorem exec_collections (op : CatalogOp) (s : Catalog) (h : op.changesPartitions = false) :
    (op.exec s).2.collections = s.collections
    ∨ ∃ x, (op.exec s).2.collections = s.collections ++ [x] := by
  by_cases hw : s.watermark < op.ts
  · cases op with
    | createCollection ts name schema =>
      simp only [CatalogOp.ts] at hw
      simp only [CatalogOp.exec, createCollection_eq, if_pos hw]
      cases findCollection s name with
      | some _ => exact Or.inl rfl
      | none => exact Or.inr ⟨_, rfl⟩
    | createPartition ts c tag => simp [CatalogOp.changesPartitions] at h
    | dropPartition ts c tag => simp [CatalogOp.changesPartitions] at h
    | hasPartition ts c tag =>
      simp only [CatalogOp.ts] at hw
      simp only [CatalogOp.exec, hasPartition, gated, validate_accepts s ts hw]
      split <;> exact Or.inl rfl
    | showPartitions ts c =>
      simp only [CatalogOp.ts] at hw
      simp only [CatalogOp.exec, showPartitions, gated, validate_accepts s ts hw]
      split <;> exact Or.inl rfl
    | describePartition ts c tag =>
      simp only [CatalogOp.ts] at hw
      simp only [CatalogOp.exec, describePartition, gated, validate_accepts s ts hw]
      split
      · exact Or.inl rfl
      · split <;> exact Or.inl rfl
  · rw [(exec_rejected op s hw).2]
    exact Or.inl rfl

theorem exec_keeps_collection (op : CatalogOp) (s : Catalog)
    (h : op.changesPartitions = false) (name : String) (meta : CollectionMeta)
    (hfind : getCollectionByName s name = .ok meta) :
    getCollectionByName (op.exec s).2 name = .ok meta := by
  have hf : s.collections.find? (fun c => decide (c.Name = name)) = some meta := by
    simp only [getCollectionByName, findCollection] at hfind
    cases hc : s.collections.find? (fun c => decide (c.Name = name)) with
    | none => rw [hc] at hfind; cases hfind
    | some m => rw [hc] at hfind; cases hfind; rfl
  rcases exec_collections op s h with heq | ⟨x, heq⟩
  · simp only [getCollectionByName, findCollection, heq, hf]
  · simp only [getCollectionByName, findCollection, heq, List.find?_append, hf]
    rfl

theorem runOps_keeps_collection (ops : List CatalogOp) (s : Catalog)
    (h : ∀ op ∈ ops, op.changesPartitions = false) (name : String) (meta : CollectionMeta)
    (hfind : getCollectionByName s name = .ok meta) :
    getCollectionByName (runOps s ops) name = .ok meta := by
  induction ops generalizing s with
  | nil => exact hfind
  | cons op rest ih =>
    simp only [runOps, List.foldl_cons]
    exact ih _ (fun o ho => h o (List.mem_cons_of_mem _ ho))
      (exec_keeps_collection op s (h op (List.mem_cons_self _ _)) name meta hfind)

/-- C13: after a successful `createCollection` the new collection's partition tags are
exactly `"_default"`, and they stay so along any requests that are neither
`createPartition` nor `dropPartition`; a successful `createPartition` appends exactly its
tag, which was not among the tags before, to the tags of its collection and leaves every
other collection as it was. -/
theorem C13_implicit_default_partition (s : Catalog) :
    (∀ (ts : Nat) (name : String) (schema : datanode.CollectionSchema),
      (createCollection s ts name schema).1 = .ok .done →
      ∀ ops : List CatalogOp, (∀ op ∈ ops, op.changesPartitions = false) →
      ∃ meta, getCollectionByName (runOps (createCollection s ts name schema).2 ops) name
          = .ok meta
        ∧ meta.PartitionTags = ["_default"])
    ∧ (∀ (ts : Nat) (name tag : String),
      (createPartition s ts name tag).1 = .ok .done →
      ∃ meta meta', getCollectionByName s name = .ok meta
        ∧ getCollectionByName (createPartition s ts name tag).2 name = .ok meta'
        ∧ meta'.PartitionTags = meta.PartitionTags ++ [tag]
        ∧ tag ∉ meta.PartitionTags
        ∧ ∀ other, other ≠ name →
            getCollectionByName (createPartition s ts name tag).2 other
              = getCollectionByName s other) := by
  constructor
  · intro ts name schema hok ops hops
    rw [createCollection_eq] at hok ⊢
    by_cases h : s.watermark < ts
    · rw [if_pos h] at hok ⊢
      cases hf : findCollection s name with
      | some old => rw [hf] at hok; cases hok
      | none =>
        simp only [hf]
        have hnew := findCollection_append_new { s with watermark := ts } name
          { Name := name, Schema := schema, CreateTime := ts,
            Partitions := [{ Tag := defaultPartitionTag, CreateTime := ts }] } rfl hf
        refine ⟨{
            Name := name, Schema := schema, CreateTime := ts,
            Partitions := [{ Tag := defaultPartitionTag, CreateTime := ts }] }, ?_, rfl⟩
        refine runOps_keeps_collection ops _ hops name _ ?_
        simp only [getCollectionByName]
        rw [hnew]
    · rw [if_neg h] at hok
      cases hok
  · intro ts name tag hok
    rw [createPartition_eq] at hok ⊢
    by_cases h : s.watermark < ts
    · rw [if_pos h] at hok ⊢
      cases hf : findCollection s name with
      | none => rw [hf] at hok; cases hok
      | some meta =>
        simp only [hf] at hok ⊢
        by_cases htag : tag ∈ meta.PartitionTags
        · rw [if_pos htag] at hok; cases hok
        · rw [if_neg htag]
          refine ⟨meta,
            { meta with Partitions := meta.Partitions ++ [{ Tag := tag, CreateTime := ts }] },
            by simp only [getCollectionByName, hf], ?_, ?_, htag, ?_⟩
          · simp only [getCollectionByName, findCollection]
            rw [find_map_same _ name (fun c =>
              { c with Partitions := c.Partitions ++ [{ Tag := tag, CreateTime := ts }] })
              (fun _ => rfl)]
            simp only [findCollection] at hf
            rw [hf]
            rfl
          · simp [CollectionMeta.PartitionTags]
          · intro other hne
            simp only [getCollectionByName, findCollection]
            rw [find_map_other _ name other (fun c =>
              { c with Partitions := c.Partitions ++ [{ Tag := tag, CreateTime := ts }] })
              (fun _ => rfl) hne]
    · rw [if_neg h] at hok
      cases hok

/-- C13 on the requests of `TestMaster_Partition`: the collection starts with the tag
`"_default"`, keeps it through two reads, and `partition1` and `partition2` are appended
in turn. -/
theorem C13_implicit_default_partition_witness :
    ((createCollection newCatalog 1 "col1" testSchema).1 = .ok .done
      ∧ (∀ op ∈ [CatalogOp.hasPartition 2 "col1" "p", CatalogOp.showPartitions 3 "col1"],
          op.changesPartitions = false)
      ∧ ∃ meta, getCollectionByName (runOps (createCollection newCatalog 1 "col1" testSchema).2
            [CatalogOp.hasPartition 2 "col1" "p", CatalogOp.showPartitions 3 "col1"]) "col1"
          = .ok meta
        ∧ meta.PartitionTags = ["_default"])
    ∧ ((createPartition (runOps newCatalog (partitionTest.take 1)) 2 "col1" "partition1").1
        = .ok .done
      ∧ ∃ meta meta', getCollectionByName (runOps newCatalog (partitionTest.take 1)) "col1"
          = .ok meta
        ∧ getCollectionByName
            (createPartition (runOps newCatalog (partitionTest.take 1)) 2 "col1"
              "partition1").2 "col1" = .ok meta'
        ∧ meta'.PartitionTags = meta.PartitionTags ++ ["partition1"]
        ∧ "partition1" ∉ meta.PartitionTags
        ∧ ∀ other, other ≠ "col1" →
            getCollectionByName
              (createPartition (runOps newCatalog (partitionTest.take 1)) 2 "col1"
                "partition1").2 other
              = getCollectionByName (runOps newCatalog (partitionTest.take 1)) other)
    ∧ (getCollectionByName (runOps newCatalog (partitionTest.take 4)) "col1").map
        CollectionMeta.PartitionTags = .ok ["_default", "partition1", "partition2"] :=
  ⟨⟨rfl, by decide,
      (C13_implicit_default_partition newCatalog).1 1 "col1" testSchema rfl _ (by decide)⟩,
    ⟨rfl, (C13_implicit_default_partition (runOps newCatalog (partitionTest.take 1))).2
      2 "col1" "partition1" rfl⟩,
    rfl⟩

end master

/-! ## Range scans of the parameter table -/

namespace paramtable

theorem LoadRange_page (t : BaseTable) (low high : String) (limit : Nat) :
    ∃ page : List ((_ : String) × String),
      t.LoadRange low high limit = (page.map (fun e => e.1), page.map (fun e => e.2))
      ∧ page.Sorted keyLE ∧ page.length ≤ limit
      ∧ (page.map (fun e => e.1)).Nodup
      ∧ ∀ e ∈ page, e ∈ t.params.entries ∧ low ≤ e.1 ∧ e.1 < high := by
  refine ⟨((t.params.entries.filter (fun e : (_ : String) × String =>
      decide (low.toList ≤ e.1.toList) && decide (e.1.toList < high.toList))).insertionSort
      keyLE).take limit, rfl, ?_, ?_, ?_, ?_⟩
  · exact (List.sorted_insertionSort keyLE _).sublist (List.take_sublist _ _)
  · exact List.length_take_le _ _
  · refine List.Nodup.sublist ((List.take_sublist _ _).map _) ?_
    refine ((List.perm_insertionSort keyLE _).map _).nodup_iff.mpr ?_
    exact List.Nodup.sublist ((List.filter_sublist _).map _) t.params.nodupKeys
  · intro e he
    have h1 := (List.perm_insertionSort keyLE _).mem_iff.mp (List.mem_of_mem_take he)
    rw [List.mem_filter] at h1
    obtain ⟨hmem, hcond⟩ := h1
    simp only [Bool.and_eq_true, decide_eq_true_eq] at hcond
    exact ⟨hmem, String.le_iff_toList_le.mpr hcond.1, String.lt_iff_toList_lt.mpr hcond.2⟩

/-- C14: for every table and all `lowKey`, `highKey` and `limit`, the keys that
`LoadRange` returns are in strictly ascending lexicographic order and all lie in the
range (`lowKey ≤ key < highKey`); there are as many values as keys, at most `limit`, and
paired by position each value is the one `Load` returns for its key. -/
theorem C14_load_range (t : BaseTable) (low high : String) (limit : Nat) :
    (t.LoadRange low high limit).1.Sorted (fun a b => a < b)
    ∧ (∀ k ∈ (t.LoadRange low high limit).1, low ≤ k ∧ k < high)
    ∧ (t.LoadRange low high limit).1.length = (t.LoadRange low high limit).2.length
    ∧ (∀ q ∈ (t.LoadRange low high limit).1.zip (t.LoadRange low high limit).2,
        t.Load q.1 = some q.2)
    ∧ (t.LoadRange low high limit).1.length ≤ limit := by
  obtain ⟨page, hpage, hsorted, hlen, hnodup, hmem⟩ := LoadRange_page t low high limit
  rw [hpage]
  refine ⟨?_, ?_, by simp, ?_, by simpa using hlen⟩
  · have hle : (page.map (fun e => e.1)).Sorted (fun a b => a ≤ b) := by
      refine List.pairwise_map.mpr (hsorted.imp ?_)
      intro a b hab
      exact String.le_iff_toList_le.mpr hab
    exact hle.lt_of_le hnodup
  · intro k hk
    obtain ⟨e, he, rfl⟩ := List.mem_map.mp hk
    exact (hmem e he).2
  · intro q hq
    rw [List.zip_map', List.mem_map] at hq
    obtain ⟨e, he, rfl⟩ := hq
    exact AList.mem_lookup_iff.mpr (hmem e he).1

/-- C14 on the table of `TestGlobalParamsTable_LoadRange`: the range from "xxxa" to
"xxxg" with limit 10 returns four entries, with the values "10", "testSaveAndLoad",
"1.1" and "20" in that order. -/
theorem C14_load_range_witness :
    rangeTestTable.LoadRange "xxxa" "xxxg" 10
      = (["xxxaab", "xxxabcd", "xxxbcde", "xxxfghz"], ["10", "testSaveAndLoad", "1.1", "20"])
    ∧ (rangeTestTable.LoadRange "xxxa" "xxxg" 10).1.Sorted (fun a b => a < b)
    ∧ (∀ k ∈ (rangeTestTable.LoadRange "xxxa" "xxxg" 10).1, "xxxa" ≤ k ∧ k < "xxxg")
    ∧ (rangeTestTable.LoadRange "xxxa" "xxxg" 10).1.length
        = (rangeTestTable.LoadRange "xxxa" "xxxg" 10).2.length
    ∧ (∀ q ∈ (rangeTestTable.LoadRange "xxxa" "xxxg" 10).1.zip
          (rangeTestTable.LoadRange "xxxa" "xxxg" 10).2,
        rangeTestTable.Load q.1 = some q.2)
    ∧ (rangeTestTable.LoadRange "xxxa" "xxxg" 10).1.length ≤ 10 :=
  ⟨by decide, C14_load_range rangeTestTable "xxxa" "xxxg" 10⟩

end paramtable

/-! ## Removing a collection -/

namespace datanode

/-- C21: for every state and collection ID `id`, `removeCollection(id)` returns no error
(also when `id` is not registered); afterwards `hasCollection(id)` is false, every other
ID has the collection it had, and the segment list is the one before the call, so
every segment stays in the list and `hasSegment` and `getSegmentByID` answer as before,
for the segments of collection `id` too; and `addSegment`, `removeSegment`,
`updateStatistics` and `getSegmentStatisticsUpdates` leave the collection map as it
was. -/
theorem C21_remove_collection_frame (r : ReplicaImpl) (id : Int) :
    (r.removeCollection id).1 = none
    ∧ (r.removeCollection id).2.hasCollection id = false
    ∧ (∀ other, other ≠ id →
        (r.removeCollection id).2.hasCollection other = r.hasCollection other
        ∧ (r.removeCollection id).2.getCollectionByID other = r.getCollectionByID other)
    ∧ (r.removeCollection id).2.segments = r.segments
    ∧ (∀ s ∈ r.segments, s.collectionID = id → s ∈ (r.removeCollection id).2.segments)
    ∧ (∀ sid, (r.removeCollection id).2.hasSegment sid = r.hasSegment sid
        ∧ (r.removeCollection id).2.getSegmentByID sid = r.getSegmentByID sid)
    ∧ (∀ (sid c p n : Int) (ch : String),
        (r.addSegment sid c p ch).2.collections = r.collections
        ∧ (r.removeSegment sid).2.collections = r.collections
        ∧ (r.updateStatistics sid n).2.collections = r.collections
        ∧ (r.getSegmentStatisticsUpdates sid).2.collections = r.collections) := by
  refine ⟨rfl, ?_, ?_, rfl, fun s hs _ => hs, fun sid => ⟨rfl, rfl⟩, ?_⟩
  · simp only [ReplicaImpl.removeCollection, ReplicaImpl.hasCollection, AList.lookup_erase,
      Option.isSome_none]
  · intro other hne
    have hlook : (r.collections.erase id).lookup other = r.collections.lookup other :=
      AList.lookup_erase_ne hne
    constructor
    · simp only [ReplicaImpl.removeCollection, ReplicaImpl.hasCollection, hlook]
    · simp only [ReplicaImpl.removeCollection, ReplicaImpl.getCollectionByID, hlook]
  · intro sid c p n ch
    refine ⟨rfl, ?_, ?_, ?_⟩
    · rcases rangeSegments_cases r.segments sid with ⟨hn, _⟩ | ⟨pre, e, post, hs, _, _, hr⟩
      · simp only [ReplicaImpl.removeSegment, hn]
      · rw [r.removeSegment_of_range sid pre post e hs hr]
    · rcases rangeSegments_cases r.segments sid with ⟨hn, _⟩ | ⟨pre, e, post, hs, _, _, hr⟩
      · simp only [ReplicaImpl.updateStatistics, hn]
      · rw [r.updateStatistics_of_range sid n pre post e hs hr]
    · rcases rangeSegments_cases r.segments sid with ⟨hn, _⟩ | ⟨pre, e, post, hs, _, _, hr⟩
      · simp only [ReplicaImpl.getSegmentStatisticsUpdates, hn]
      · rw [r.getSegmentStatisticsUpdates_of_range sid pre post e hs hr]

/-- C21 at a concrete input: the sample with collections 10 and 11 registered;
collection 10, which owns segments 1 and 2, is removed. -/
theorem C21_remove_collection_frame_witness :
    ((sampleReplica.addCollection newCollectionOk 10 master.testSchema).2.addCollection
        newCollectionOk 11 master.testSchema).2.hasCollection 10 = true
    ∧ (11 : Int) ≠ 10
    ∧ ((((sampleReplica.addCollection newCollectionOk 10 master.testSchema).2.addCollection
          newCollectionOk 11 master.testSchema).2.removeCollection 10).2.hasCollection 11
        = ((sampleReplica.addCollection newCollectionOk 10 master.testSchema).2.addCollection
          newCollectionOk 11 master.testSchema).2.hasCollection 11
      ∧ (((sampleReplica.addCollection newCollectionOk 10 master.testSchema).2.addCollection
          newCollectionOk 11 master.testSchema).2.removeCollection 10).2.getCollectionByID 11
        = ((sampleReplica.addCollection newCollectionOk 10 master.testSchema).2.addCollection
          newCollectionOk 11 master.testSchema).2.getCollectionByID 11)
    ∧ (((sampleReplica.addCollection newCollectionOk 10 master.testSchema).2.addCollection
          newCollectionOk 11 master.testSchema).2.removeCollection 10).2.hasCollection 10
        = false
    ∧ (((sampleReplica.addCollection newCollectionOk 10 master.testSchema).2.addCollection
          newCollectionOk 11 master.testSchema).2.removeCollection 10).2.hasSegment 1 = true :=
  ⟨by decide, by decide,
    (C21_remove_collection_frame
      ((sampleReplica.addCollection newCollectionOk 10 master.testSchema).2.addCollection
        newCollectionOk 11 master.testSchema).2 10).2.2.1 11 (by decide),
    (C21_remove_collection_frame
      ((sampleReplica.addCollection newCollectionOk 10 master.testSchema).2.addCollection
        newCollectionOk 11 master.testSchema).2 10).2.1,
    by decide⟩

end datanode
